import Mathlib

/-!
# Verification of the PDF-to-SSRS blueprint analysis pipeline

A shallow embedding, in Lean 4, of the analysis pipeline of the
`pdf-ssrs-blueprint` repository: the field-name generators, the
rule-based component classifier, the region classifier, the proximity
pairers, the table-structure detector and the RDL output projections.

Conventions of the embedding:
* JavaScript numbers are modelled as exact rationals (`ℚ`).  All the
  arithmetic the pipeline performs on coordinates is addition,
  subtraction, multiplication, division by constants and comparisons,
  which agree with exact arithmetic away from floating-point rounding
  boundaries; concrete inputs in counterexamples and witnesses are
  chosen far from such boundaries.
* `Math.sqrt` is not rational, so distance *comparisons* are embedded
  as comparisons of squared distances (`Real.sqrt` is strictly
  monotone on nonnegatives, so the branches taken are identical); the
  bridging lemmas relate the squared forms to the `max (0, 1 - d/300)`
  proximity formula over `ℝ`.
* Strings are modelled over the ASCII fragment: the character classes
  of the source regexes (`[a-zA-Z0-9]`, `\s`, `\w`, …) are embedded as
  decidable predicates on `Char`, and `toUpperCase`/`toLowerCase` use
  core `Char.toUpper`/`Char.toLower`, which agree with JavaScript on
  ASCII.
* Mutation (`pairedWith` back-references, `Set` membership) is
  embedded index-based: components are addressed by their position in
  the input list and the pairing state is an explicit list of indices.
-/

/-! ## Character classes (the JS regex classes over ASCII) -/

/-- `[a-z]` -/
def isLowerCh (c : Char) : Bool := 97 ≤ c.toNat && c.toNat ≤ 122

/-- `[A-Z]` -/
def isUpperCh (c : Char) : Bool := 65 ≤ c.toNat && c.toNat ≤ 90

/-- `[0-9]` (`\d`) -/
def isDigitCh (c : Char) : Bool := 48 ≤ c.toNat && c.toNat ≤ 57

/-- `[a-zA-Z0-9]` -/
def isAlnumCh (c : Char) : Bool := isLowerCh c || isUpperCh c || isDigitCh c

/-- `\s`, restricted to its ASCII members (space, tab, LF, VT, FF, CR). -/
def isWsCh (c : Char) : Bool :=
  c = ' ' || c = '\t' || c = '\n' || c = '\x0b' || c = '\x0c' || c = '\r'

/-- `\w` = `[A-Za-z0-9_]` -/
def isWordCh (c : Char) : Bool := isAlnumCh c || c = '_'

/-- `[A-Z0-9]` -/
def isUpperDigitCh (c : Char) : Bool := isUpperCh c || isDigitCh c

/-! ## String helpers shared by several source functions -/

/-- JS `String.prototype.trim` (ASCII whitespace model). -/
def trimChars (l : List Char) : List Char :=
  ((l.dropWhile isWsCh).reverse.dropWhile isWsCh).reverse

/-- Prepend a character to the first word of a split result. -/
def consHead (c : Char) : List (List Char) → List (List Char)
  | [] => [[c]]
  | w :: ws => (c :: w) :: ws

/-- JS `str.split(/\s+/)` on a character list: splits at maximal
whitespace runs; a leading (resp. trailing) run contributes a leading
(resp. trailing) empty word, and `"".split` gives `[""]`. -/
def splitWsCh : List Char → List (List Char)
  | [] => [[]]
  | [c] => if isWsCh c then [[], []] else [[c]]
  | c :: r :: rest =>
    if isWsCh c then
      if isWsCh r then splitWsCh (r :: rest) else [] :: splitWsCh (r :: rest)
    else consHead c (splitWsCh (r :: rest))

/-- `word.charAt(0).toUpperCase() + word.slice(1).toLowerCase()` -/
def capitalizeWord : List Char → List Char
  | [] => []
  | c :: rest => Char.toUpper c :: rest.map Char.toLower

/-- JS `text.toUpperCase()` on a string (ASCII model). -/
def upperStr (s : String) : String := ⟨s.toList.map Char.toUpper⟩

/-- JS `text.trim()` on a string. -/
def trimStr (s : String) : String := ⟨trimChars s.toList⟩

/-! ## Field-name generators (`generateFieldName`, `sanitizeFieldName`)

Both source functions run the same pipeline
`text.replace(/[^a-zA-Z0-9\s]/g, '').trim().split(/\s+/)
     .map(capitalize-first-lowercase-rest).join('').replace(/\s/g, '')`
(`generateFieldName`'s `map` callback also receives the word index but
both of its branches are identical, so the index is irrelevant).
`sanitizeFieldName` additionally guards falsy input with `'Field1'`
and appends `|| 'Field1'` to the result; `generateFieldName` has no
fallback. -/

def fieldNamePipeline (l : List Char) : List Char :=
  ((splitWsCh (trimChars (l.filter fun c => isAlnumCh c || isWsCh c))).map
    capitalizeWord).flatten.filter fun c => !(isWsCh c)

/-- `AIPDFAnalyzer.generateFieldName` -/
def generateFieldName (s : String) : String := ⟨fieldNamePipeline s.toList⟩

/-- `RDLGenerator.sanitizeFieldName` (the repository file holding it is
`src/unnamed/part_002`). -/
def sanitizeFieldName (s : String) : String :=
  if s = "" then "Field1"
  else
    let r := fieldNamePipeline s.toList
    if r = [] then "Field1" else ⟨r⟩

/-! ## Data model (`AIPDFAnalyzer.ts` interfaces) -/

/-- The six values admitted by the `AIClassificationResult.label` union type. -/
inductive CLabel
  | staticLabel | dynamicData | standaloneText | tableHeader | tableData | formLabel
deriving DecidableEq

inductive Region
  | header | body | footer
deriving DecidableEq

/-- `context.position` values. -/
inductive CtxPos
  | left | right | above | below | isolated
deriving DecidableEq

/-- `AIClassificationResult` -/
structure ACR where
  label : CLabel
  score : ℚ
  reasoning : String
  confidence : String
deriving DecidableEq

/-- `EnhancedPDFComponent` (the `context` object is flattened to the one
field the classifier reads, `context?.position`; the table-context
fields written by `detectTables` after table assembly do not feed back
into any function verified here). -/
structure EPC where
  text : String
  x : ℚ
  y : ℚ
  width : ℚ
  height : ℚ
  fontSize : ℚ
  fontFamily : String := "Arial"
  color : Option String := none
  fontWeight : Option String := none
  isItalic : Option Bool := none
  aiClassification : Option ACR := none
  ctxPosition : Option CtxPos := none
  rdlType : Option Region := none
  fieldMapping : Option String := none
deriving DecidableEq

/-! ## The regexes of `enhancedRuleBasedClassification`, as decidable predicates

Each `matchXi` below embeds one regex literal of the source; `/i`
patterns uppercase the text first (equivalent on ASCII), unanchored
patterns quantify over `List.tails`. -/

def strUpperList (s : String) : List Char := s.toList.map Char.toUpper

/-- Match `A\s?B` against `u` (one optional whitespace char between the parts). -/
def matchOptWs (a b u : List Char) : Bool :=
  u = a ++ b ||
    (u.take a.length = a &&
      match u.drop a.length with
      | w :: rest => isWsCh w && rest = b
      | [] => false)

/-- Strip the optional trailing colon of a `...:?$` pattern (no
alternative of those patterns itself ends in a colon). -/
def dropColonOpt (u : List Char) : List Char :=
  if u.getLast? = some ':' then u.dropLast else u

/-- `/^(SHIP\s?TO|BILL\s?TO|SOLD\s?TO|FROM|TO|DATE|ORDER|PO|INVOICE|CUSTOMER|CLIENT):?$/i` -/
def staticP1 (s : String) : Bool :=
  let u := dropColonOpt (strUpperList s)
  matchOptWs "SHIP".toList "TO".toList u || matchOptWs "BILL".toList "TO".toList u ||
  matchOptWs "SOLD".toList "TO".toList u ||
  ["FROM", "TO", "DATE", "ORDER", "PO", "INVOICE", "CUSTOMER", "CLIENT"].any
    fun w => u = w.toList

/-- `/^[A-Z\s]{2,25}:$/` (case-sensitive). -/
def staticP2 (s : String) : Bool :=
  let l := s.toList
  l.getLast? = some ':' &&
    (let core := l.dropLast
     2 ≤ core.length && core.length ≤ 25 &&
       core.all fun c => isUpperCh c || isWsCh c)

/-- `/^(TOTAL|SUBTOTAL|TAX|AMOUNT|QTY|QUANTITY|DESCRIPTION|PRICE|UNIT\s?PRICE|ITEM|PRODUCT):?$/i` -/
def staticP3 (s : String) : Bool :=
  let u := dropColonOpt (strUpperList s)
  matchOptWs "UNIT".toList "PRICE".toList u ||
  ["TOTAL", "SUBTOTAL", "TAX", "AMOUNT", "QTY", "QUANTITY", "DESCRIPTION",
   "PRICE", "ITEM", "PRODUCT"].any fun w => u = w.toList

/-- `/^(NAME|COMPANY|ADDRESS|PHONE|EMAIL|FAX|ACCOUNT|ID|NUMBER):?$/i` -/
def staticP4 (s : String) : Bool :=
  let u := dropColonOpt (strUpperList s)
  ["NAME", "COMPANY", "ADDRESS", "PHONE", "EMAIL", "FAX", "ACCOUNT", "ID",
   "NUMBER"].any fun w => u = w.toList

/-- `/^(DUE\s?DATE|PAYMENT\s?TERMS|REFERENCE|ORDER\s?DATE):?$/i` -/
def staticP5 (s : String) : Bool :=
  let u := dropColonOpt (strUpperList s)
  matchOptWs "DUE".toList "DATE".toList u ||
  matchOptWs "PAYMENT".toList "TERMS".toList u ||
  matchOptWs "ORDER".toList "DATE".toList u || u = "REFERENCE".toList

/-- `staticLabelPatterns.some(pattern => pattern.test(text))` -/
def staticLabelMatch (s : String) : Bool :=
  staticP1 s || staticP2 s || staticP3 s || staticP4 s || staticP5 s

/-- The two `tableHeaderPatterns` regexes
`/^(ITEM|DESCRIPTION|QTY|QUANTITY|PRICE|AMOUNT|TOTAL|UNIT|RATE|TAX)$/i` and
`/^(PRODUCT|SERVICE|HOURS|COST|SUBTOTAL|DISCOUNT)$/i`: a case-insensitive
whole-string match of a closed vocabulary. -/
def tableHeaderMatch (s : String) : Bool :=
  ["ITEM", "DESCRIPTION", "QTY", "QUANTITY", "PRICE", "AMOUNT", "TOTAL",
   "UNIT", "RATE", "TAX", "PRODUCT", "SERVICE", "HOURS", "COST", "SUBTOTAL",
   "DISCOUNT"].any fun w => strUpperList s = w.toList

/-- Tail of `/^\d+([.,]\d+)*$/`: a sequence of `[.,]`-separated digit groups. -/
def d1Tail : List Char → Bool
  | [] => true
  | c :: rest =>
    (c = '.' || c = ',') &&
      (rest.takeWhile isDigitCh ≠ [] && d1Tail (rest.dropWhile isDigitCh))
termination_by l => l.length
decreasing_by
  exact Nat.lt_succ_of_le (List.dropWhile_sublist _).length_le

/-- `/^\d+([.,]\d+)*$/` -/
def matchD1 (l : List Char) : Bool :=
  l.takeWhile isDigitCh ≠ [] && d1Tail (l.dropWhile isDigitCh)

/-- `/^\$[\d,]+(\.\d{2})?$/` -/
def matchD2 : List Char → Bool
  | '$' :: rest =>
    rest.takeWhile (fun c => isDigitCh c || c = ',') ≠ [] &&
      (match rest.dropWhile (fun c => isDigitCh c || c = ',') with
       | [] => true
       | ['.', d1, d2] => isDigitCh d1 && isDigitCh d2
       | _ => false)
  | _ => false

def isSepDashCh (c : Char) : Bool := c = '-' || c = '/'

/-- `n` digits at the front of `l`, returning the rest. -/
def takeDigits (n : Nat) (l : List Char) : Option (List Char) :=
  if (l.take n).length = n && (l.take n).all isDigitCh then some (l.drop n)
  else none

/-- A match of `\d{a}[-\/]\d{b}[-\/]\d{c}` starting at the front of `l`
(the remainder is unconstrained: the date regex is unanchored). -/
def dateShape (l : List Char) (a b c : Nat) : Bool :=
  match takeDigits a l with
  | none => false
  | some r1 =>
    match r1 with
    | s1 :: r1' =>
      isSepDashCh s1 &&
        (match takeDigits b r1' with
         | none => false
         | some r2 =>
           match r2 with
           | s2 :: r2' => isSepDashCh s2 && (takeDigits c r2').isSome
           | [] => false)
    | [] => false

/-- `/\d{1,2}[-\/]\d{1,2}[-\/]\d{2,4}/` (unanchored: existence of a match
at any position, with any admissible group lengths). -/
def matchD3 (l : List Char) : Bool :=
  l.tails.any fun t =>
    [1, 2].any fun a => [1, 2].any fun b => [2, 3, 4].any fun c =>
      dateShape t a b c

def isWddCh (c : Char) : Bool := isWordCh c || c = '.' || c = '-'

/-- After at least one `[\w.-]` character: more `[\w.-]`, then a literal
dot followed by a `\w` character. -/
def emailTail : List Char → Bool
  | [] => false
  | c :: rest =>
    (c = '.' && match rest with | d :: _ => isWordCh d | [] => false) ||
    (isWddCh c && emailTail rest)

/-- `/@[\w.-]+\.\w+/` (unanchored). -/
def matchD4 (l : List Char) : Bool :=
  l.tails.any fun t =>
    match t with
    | '@' :: c :: rest => isWddCh c && emailTail rest
    | _ => false

def isPhoneSepCh (c : Char) : Bool := c = '-' || c = '.' || isWsCh c

/-- Consume the optional `[-.\s]?` separator (separators are never
digits, so the optional group is deterministic here). -/
def dropOptSep : List Char → List Char
  | c :: rest => if isPhoneSepCh c then rest else c :: rest
  | [] => []

/-- `/^\d{3}[-.\s]?\d{3}[-.\s]?\d{4}$/` -/
def matchD5 (l : List Char) : Bool :=
  match takeDigits 3 l with
  | none => false
  | some r1 =>
    match takeDigits 3 (dropOptSep r1) with
    | none => false
    | some r2 =>
      match takeDigits 4 (dropOptSep r2) with
      | none => false
      | some r3 => r3 = []

/-- `/^[a-z]/` -/
def matchD6 : List Char → Bool
  | c :: _ => isLowerCh c
  | [] => false

def isLineTermCh (c : Char) : Bool := c = '\n' || c = '\r'

/-- `/.{30,}/`: thirty consecutive non-line-terminator characters
somewhere in the text. -/
def matchD7 (l : List Char) : Bool :=
  l.tails.any fun t =>
    (t.take 30).length = 30 && (t.take 30).all fun c => !(isLineTermCh c)

/-- `/^\d+$/` -/
def matchD8 (l : List Char) : Bool := l ≠ [] && l.all isDigitCh

/-- After at least one `[A-Z0-9]` character: more `[A-Z0-9]`, then
`[-_]` followed by an `[A-Z0-9]` character. -/
def codeTail : List Char → Bool
  | [] => false
  | c :: rest =>
    ((c = '-' || c = '_') && match rest with | d :: _ => isUpperDigitCh d | [] => false) ||
    (isUpperDigitCh c && codeTail rest)

/-- `/^[A-Z0-9]+[-_][A-Z0-9]+/` (anchored at the start only). -/
def matchD9 : List Char → Bool
  | c :: rest => isUpperDigitCh c && codeTail rest
  | [] => false

/-- `dynamicDataPatterns.some(pattern => pattern.test(text))`, in source
order: numbers, currency, dates, emails, phone numbers, leading
lowercase, length ≥ 30, pure numbers, codes/IDs. -/
def dynamicDataMatch (s : String) : Bool :=
  let l := s.toList
  matchD1 l || matchD2 l || matchD3 l || matchD4 l || matchD5 l ||
  matchD6 l || matchD7 l || matchD8 l || matchD9 l

/-! ## `enhancedRuleBasedClassification` and the classifier pipeline -/

/-- `text.includes(':')` -/
def containsColon (s : String) : Bool := s.toList.contains ':'

/-- `text.endsWith(':')` -/
def endsWithColon (s : String) : Bool := s.toList.getLast? = some ':'

/-- `AIPDFAnalyzer.enhancedRuleBasedClassification(text, component)`.
The source also computes `upperText = text.toUpperCase().trim()` but
never uses it.  The nested bold-branch of the source (`if bold then
(if short-with-colon … else if very-short …)` falling through) is
flattened into the equivalent guard chain. -/
def enhancedRuleBasedClassification (text : String) (component : EPC) : ACR :=
  if tableHeaderMatch text then
    { label := .tableHeader, score := 95/100,
      reasoning := "Matches table header patterns", confidence := "high" }
  else if staticLabelMatch text then
    { label := .staticLabel, score := 9/10,
      reasoning := "Matches known static label patterns", confidence := "high" }
  else if dynamicDataMatch text then
    { label := .dynamicData, score := 85/100,
      reasoning := "Matches known dynamic data patterns", confidence := "high" }
  else if component.fontWeight = some "bold" ∧ text.length < 20 ∧ containsColon text then
    { label := .staticLabel, score := 8/10,
      reasoning := "Bold text with colon suggests form label", confidence := "medium" }
  else if component.fontWeight = some "bold" ∧ text.length < 15 then
    { label := .tableHeader, score := 3/4,
      reasoning := "Bold and short text suggests table header", confidence := "medium" }
  else if component.fontSize ≠ 0 ∧ component.fontSize > 14 then
    { label := .staticLabel, score := 7/10,
      reasoning := "Large font size suggests header/label", confidence := "medium" }
  else if component.ctxPosition = some .left ∧ endsWithColon text then
    { label := .staticLabel, score := 3/4,
      reasoning := "Left-positioned text with colon suggests label", confidence := "medium" }
  else
    { label := .standaloneText, score := 1/2,
      reasoning := "Could not determine specific type", confidence := "low" }

/-- `AIPDFAnalyzer.aiClassificationZeroShot`, given the external model's
top label and score (the external classifier is an opaque collaborator;
its thrown errors are modelled by `ExternalOutcome.failure` below). -/
def aiClassificationZeroShot (topResult : String) (score : ℚ) : ACR :=
  let mappedLabel : CLabel :=
    if topResult = "form label" ∨ topResult = "title or heading" then .staticLabel
    else if topResult = "table header" then .tableHeader
    else if topResult = "data value" ∨ topResult = "monetary amount" ∨
      topResult = "date or time" ∨ topResult = "contact information" ∨
      topResult = "address information" then .dynamicData
    else .standaloneText
  { label := mappedLabel, score := score,
    reasoning := "AI classified as: " ++ topResult,
    confidence := if score > 8/10 then "high" else if score > 6/10 then "medium" else "low" }

/-- `AIPDFAnalyzer.combineClassifications` -/
def combineClassifications (ruleBased aiResult : ACR) : ACR :=
  if ruleBased.label = aiResult.label then
    let combinedScore := ruleBased.score * (7/10) + aiResult.score * (3/10)
    { label := ruleBased.label, score := combinedScore,
      reasoning := "Combined: " ++ ruleBased.reasoning ++ " + " ++ aiResult.reasoning,
      confidence := if combinedScore > 8/10 then "high"
        else if combinedScore > 6/10 then "medium" else "low" }
  else if ruleBased.score > aiResult.score then ruleBased else aiResult

/-- The possible behaviours of the external zero-shot classifier on one
call: the model was never initialized (`textClassifier` is null), the
call threw (caught by `classifyTextComponent`), or it returned a top
label with a score. -/
inductive ExternalOutcome
  | unavailable
  | failure
  | success (topLabel : String) (score : ℚ)
deriving DecidableEq

/-- `AIPDFAnalyzer.classifyTextComponent`: rule-based first, the
external classifier only for uncertain cases; external unavailability
or failure falls back to the rule-based result. -/
def classifyTextComponent (component : EPC) (ext : ExternalOutcome) : ACR :=
  let text := trimStr component.text
  let ruleBasedResult := enhancedRuleBasedClassification text component
  if ruleBasedResult.score > 8/10 then ruleBasedResult
  else
    match ext with
    | .unavailable => ruleBasedResult
    | .failure => ruleBasedResult
    | .success l s => combineClassifications ruleBasedResult (aiClassificationZeroShot l s)

/-! ## Region classifier (`analyzeDocumentStructure`) and pipeline glue -/

/-- `Math.min(...)` over a spread of a mapped array (all call sites
pass a nonempty array; the JS value on an empty spread would be
`Infinity`, which never arises here). -/
def qListMin : List ℚ → ℚ
  | [] => 0
  | x :: xs => xs.foldl min x

/-- `Math.max(...)` over a spread (nonempty at all call sites). -/
def qListMax : List ℚ → ℚ
  | [] => 0
  | x :: xs => xs.foldl max x

/-- `minY = Math.min(...components.map(c => c.y))` -/
def pageMinY (components : List EPC) : ℚ := qListMin (components.map fun c => c.y)

/-- `maxY = Math.max(...components.map(c => c.y + c.height))` -/
def pageMaxY (components : List EPC) : ℚ :=
  qListMax (components.map fun c => c.y + c.height)

/-- `headerThreshold = minY + pageHeight * 0.15` with
`pageHeight = maxY - minY`. -/
def headerThresholdOf (components : List EPC) : ℚ :=
  pageMinY components + (pageMaxY components - pageMinY components) * (15/100)

/-- `footerThreshold = maxY - pageHeight * 0.15`. -/
def footerThresholdOf (components : List EPC) : ℚ :=
  pageMaxY components - (pageMaxY components - pageMinY components) * (15/100)

/-- The region branch of `analyzeDocumentStructure`: header if above
the header threshold, footer if the bottom edge passes the footer
threshold, else body. -/
def regionOf (components : List EPC) (component : EPC) : Region :=
  if component.y < headerThresholdOf components then Region.header
  else if component.y + component.height > footerThresholdOf components then
    Region.footer
  else Region.body

/-- `AIPDFAnalyzer.analyzeDocumentStructure`: assigns a region to every
component by vertical position.  The source also builds `sortedByY`,
which it never uses afterwards. -/
def analyzeDocumentStructure (components : List EPC) : List EPC :=
  if components.isEmpty then components
  else
    components.map fun component =>
      { component with rdlType := some (regionOf components component) }

/-- `AIPDFAnalyzer.calculateDistance` squared: the squared Euclidean
center-to-center distance (the source takes `Math.sqrt`; every use is a
comparison, and squaring both sides of a comparison of nonnegative
square roots preserves it). -/
def calculateDistanceSq (comp1 comp2 : EPC) : ℚ :=
  let centerX1 := comp1.x + comp1.width / 2
  let centerY1 := comp1.y + comp1.height / 2
  let centerX2 := comp2.x + comp2.width / 2
  let centerY2 := comp2.y + comp2.height / 2
  (centerX1 - centerX2) ^ 2 + (centerY1 - centerY2) ^ 2

/-- `AIPDFAnalyzer.analyzeContext`, restricted to the `position` field
it computes (`nearbyText` is carried along in the source but read by
nothing that is verified here).  `other !== component` is object
identity in the source, embedded as index inequality; the proximity
test `distance < 150` becomes `distanceSq < 22500`. -/
def analyzeContextPos (i : ℕ) (component : EPC) (all : List (ℕ × EPC)) : CtxPos :=
  let nearby := all.filter fun jc =>
    jc.1 ≠ i && calculateDistanceSq component jc.2 < 22500
  if nearby.isEmpty then CtxPos.isolated
  else
    let sameRow := nearby.filter fun jc => |jc.2.y - component.y| < 20
    if !sameRow.isEmpty then
      let rightComponents := sameRow.filter fun jc => jc.2.x > component.x + component.width
      let leftComponents := sameRow.filter fun jc => jc.2.x + jc.2.width < component.x
      if !rightComponents.isEmpty then CtxPos.right
      else if !leftComponents.isEmpty then CtxPos.left
      else CtxPos.isolated
    else
      let belowComponents := nearby.filter fun jc => jc.2.y > component.y + component.height
      let aboveComponents := nearby.filter fun jc => jc.2.y + jc.2.height < component.y
      if !belowComponents.isEmpty then CtxPos.below
      else if !aboveComponents.isEmpty then CtxPos.above
      else CtxPos.isolated

/-- `AIPDFAnalyzer.analyzeComponents`: classify every component and
attach its context.  The external classifier's behaviour on the call
for component number `i` is the parameter `ext i`. -/
def analyzeComponents (components : List EPC) (ext : ℕ → ExternalOutcome) : List EPC :=
  components.enum.map fun ic =>
    { ic.2 with
        aiClassification := some (classifyTextComponent ic.2 (ext ic.1)),
        ctxPosition := some (analyzeContextPos ic.1 ic.2 components.enum) }

/-- The three region filters of `analyzeDocument` (steps 6): e.g.
`structuredComponents.filter(c => c.rdlType === 'header')`. -/
def regionFilter (r : Region) (structured : List EPC) : List EPC :=
  structured.filter fun c => c.rdlType = some r

/-! ## Proximity pairer of `AIPDFAnalyzer.findLabelDataPairs`

Components are addressed by their index in the input list; the
`usedDataComponents` set is the explicit index list `used`.  Distances
are compared squared, and the acceptance test `confidence > 0.4` with
`confidence = max(0, 1 - distance/300)` is equivalent to
`distance < 180`, i.e. `distanceSq < 32400` (bridging lemma below). -/

structure LDPair where
  labelIdx : ℕ
  dataIdx : ℕ
  distSq : ℚ
deriving DecidableEq

/-- The candidate filter body of `findLabelDataPairs`: right-of in the
same row, below with similar X, or direct horizontal alignment. -/
def aiIsCandidate (label data : EPC) : Bool :=
  (data.x > label.x + label.width && |data.y - label.y| < 30) ||
  (data.y > label.y + label.height && |data.x - label.x| < 50) ||
  (|data.y - label.y| < 10 && data.x > label.x + label.width &&
    data.x < label.x + label.width + 200)

/-- `candidates.reduce((prev, curr) => dist(label,curr) < dist(label,prev) ? curr : prev)`:
the earliest candidate of minimal distance. -/
def selectClosestAI (label : EPC) : (ℕ × EPC) → List (ℕ × EPC) → (ℕ × EPC)
  | best, [] => best
  | best, c :: rest =>
    selectClosestAI label
      (if calculateDistanceSq label c.2 < calculateDistanceSq label best.2 then c else best)
      rest

def findLabelDataPairsAux :
    List (ℕ × EPC) → List (ℕ × EPC) → List ℕ → List LDPair
  | [], _, _ => []
  | (li, l) :: rest, datas, used =>
    match datas.filter fun djd => !(used.contains djd.1) && aiIsCandidate l djd.2 with
    | [] => findLabelDataPairsAux rest datas used
    | c :: cs =>
      if calculateDistanceSq l (selectClosestAI l c cs).2 < 32400 then
        ⟨li, (selectClosestAI l c cs).1, calculateDistanceSq l (selectClosestAI l c cs).2⟩ ::
          findLabelDataPairsAux rest datas ((selectClosestAI l c cs).1 :: used)
      else findLabelDataPairsAux rest datas used

/-- The label filter of `findLabelDataPairs`:
`c.aiClassification?.label === 'static-label' || … === 'form-label'`. -/
def labelsFilterAI (components : List (ℕ × EPC)) : List (ℕ × EPC) :=
  components.filter fun ic =>
    match ic.2.aiClassification with
    | some a => a.label = CLabel.staticLabel || a.label = CLabel.formLabel
    | none => false

/-- The data filter of `findLabelDataPairs`:
`c.aiClassification?.label === 'dynamic-data' || … === 'table-data'`. -/
def dataFilterAI (components : List (ℕ × EPC)) : List (ℕ × EPC) :=
  components.filter fun ic =>
    match ic.2.aiClassification with
    | some a => a.label = CLabel.dynamicData || a.label = CLabel.tableData
    | none => false

/-- `AIPDFAnalyzer.findLabelDataPairs` (the source also writes
`closest.fieldMapping = generateFieldName(label.text)` on acceptance, a
side effect on the data component that no verified claim reads). -/
def findLabelDataPairs (components : List EPC) : List LDPair :=
  findLabelDataPairsAux (labelsFilterAI components.enum) (dataFilterAI components.enum) []

/-! ## Proximity pairer of `EnhancedPDFParser.findEnhancedLabelDataPairs`

`HeaderComponent` is embedded with the fields the pairer reads; its
`calculateDistance` is the Euclidean distance between the components'
`(x, y)` corners (not centers).  `proximity = max(0, 1 - distance/300)`
and the acceptance test `proximity > 0.3` is equivalent to
`distance < 210`, i.e. `distanceSq < 44100`. -/

/-- `HeaderComponent`, restricted to the fields the pairing functions
read (`type` and `confidence` are set by the callers; `pairedWith` is
the explicit relation computed by the pairer below). -/
structure HC where
  type : CLabel := CLabel.standaloneText
  text : String := ""
  x : ℚ
  y : ℚ
  width : ℚ
  height : ℚ
  confidence : ℚ := 1/2
deriving DecidableEq

/-- `EnhancedPDFParser.calculateDistance` squared: `dx = |x₁ - x₂|`,
`dy = |y₁ - y₂|`, and the source returns `sqrt(dx² + dy²)`. -/
def cornerDistSq (comp1 comp2 : HC) : ℚ :=
  |comp1.x - comp2.x| ^ 2 + |comp1.y - comp2.y| ^ 2

/-- `EnhancedPDFParser.isValidLabelDataPair`: within 300 units and
right-of-in-row or below-aligned.  `distance <= 300` is embedded as
`distanceSq ≤ 90000`. -/
def isValidLabelDataPair (label data : HC) : Bool :=
  (cornerDistSq label data ≤ 90000) &&
  ((data.x > label.x + label.width && |data.y - label.y| < 30) ||
   (data.y > label.y + label.height && |data.x - label.x| < 100))

/-- The same `reduce` selection, for `HC` with corner distances. -/
def selectClosestHC (label : HC) : (ℕ × HC) → List (ℕ × HC) → (ℕ × HC)
  | best, [] => best
  | best, c :: rest =>
    selectClosestHC label
      (if cornerDistSq label c.2 < cornerDistSq label best.2 then c else best)
      rest

structure EPair where
  labelIdx : ℕ
  dataIdx : ℕ
  distSq : ℚ
deriving DecidableEq

def enhancedPairsAux : List (ℕ × HC) → List (ℕ × HC) → List ℕ → List EPair
  | [], _, _ => []
  | (li, l) :: rest, datas, used =>
    match datas.filter fun djd => !(used.contains djd.1) && isValidLabelDataPair l djd.2 with
    | [] => enhancedPairsAux rest datas used
    | c :: cs =>
      if cornerDistSq l (selectClosestHC l c cs).2 < 44100 then
        ⟨li, (selectClosestHC l c cs).1, cornerDistSq l (selectClosestHC l c cs).2⟩ ::
          enhancedPairsAux rest datas ((selectClosestHC l c cs).1 :: used)
      else enhancedPairsAux rest datas used

/-- `EnhancedPDFParser.findEnhancedLabelDataPairs(labels, dataComponents)`. -/
def findEnhancedLabelDataPairs (labels datas : List HC) : List EPair :=
  enhancedPairsAux labels.enum datas.enum []

/-- The `pairedWith` reference of label number `i` after a pairing run
(set by `label.pairedWith = closest` on acceptance). -/
def pairedWithOfLabel (pairs : List EPair) (i : ℕ) : Option ℕ :=
  (pairs.find? fun p => p.labelIdx == i).map fun p => p.dataIdx

/-- The `pairedWith` reference of data component number `j` after a
pairing run (set by `closest.pairedWith = label` on acceptance). -/
def pairedWithOfData (pairs : List EPair) (j : ℕ) : Option ℕ :=
  (pairs.find? fun p => p.dataIdx == j).map fun p => p.labelIdx

/-! ## Table structure detector (`detectTables` and helpers)

JS `Array.prototype.sort` is stable (ES2019); the comparators
`(a, b) => a.y - b.y` etc. are embedded as a stable insertion sort by
the same key. -/

/-- Insert `a` after every element whose key is `≤ key a` (stable). -/
def insertLe (key : α → ℚ) (a : α) : List α → List α
  | [] => [a]
  | b :: rest => if key b ≤ key a then b :: insertLe key a rest else a :: b :: rest

/-- Stable sort by a rational key (JS `arr.sort((p, q) => key p - key q)`). -/
def sortByKey (key : α → ℚ) (l : List α) : List α :=
  l.foldl (fun acc a => insertLe key a acc) []

/-- `AIPDFAnalyzer.groupByRows` loop state: the groups already closed,
the group being built and its running average Y (`-1` is the source's
initial sentinel, compared with `===`). -/
def groupByRowsAux (tol : ℚ) :
    List EPC → List (List EPC) → List EPC → ℚ → List (List EPC)
  | [], groups, currentGroup, _ =>
    if currentGroup.length > 0 then groups ++ [currentGroup] else groups
  | c :: rest, groups, currentGroup, currentY =>
    if currentY = -1 || |c.y - currentY| ≤ tol then
      groupByRowsAux tol rest groups (currentGroup ++ [c])
        (if currentY = -1 then c.y else (currentY + c.y) / 2)
    else
      groupByRowsAux tol rest
        (if currentGroup.length > 0 then groups ++ [currentGroup] else groups)
        [c] c.y

/-- `AIPDFAnalyzer.groupByRows`. -/
def groupByRows (components : List EPC) (tolerance : ℚ) : List (List EPC) :=
  groupByRowsAux tolerance (sortByKey (fun c => c.y) components) [] [] (-1)

/-- `/^(description|qty|quantity|price|amount|total|date|item|product|name)/i.test(c.text.trim())`:
a case-insensitive prefix match. -/
def typicalHeaderStart (s : String) : Bool :=
  let u := strUpperList (trimStr s)
  ["DESCRIPTION", "QTY", "QUANTITY", "PRICE", "AMOUNT", "TOTAL", "DATE",
   "ITEM", "PRODUCT", "NAME"].any fun w => u.take w.length = w.toList

/-- Consecutive differences of a list (the `spacings` of sorted X positions). -/
def diffsQ : List ℚ → List ℚ
  | a :: b :: rest => (b - a) :: diffsQ (b :: rest)
  | _ => []

/-- `AIPDFAnalyzer.isLikelyTableHeader`. -/
def isLikelyTableHeader (components : List EPC) : Bool :=
  if components.length < 2 then false
  else
    let boldCount := (components.filter fun c => c.fontWeight = some "bold").length
    let hasTypicalHeaders := components.any fun c => typicalHeaderStart c.text
    let xPositions := sortByKey id (components.map fun c => c.x)
    let spacings := diffsQ xPositions
    let avgSpacing := spacings.sum / (spacings.length : ℚ)
    let consistentSpacing := spacings.all fun s => |s - avgSpacing| < avgSpacing * (3/10)
    ((boldCount : ℚ) > (components.length : ℚ) * (1/2)) || hasTypicalHeaders ||
      consistentSpacing

/-- `headerXPositions.reduce((prev, curr) => |curr - x| < |prev - x| ? curr : prev)`
(the source's `reduce` with no initial value starts from the head; the
call site passes a nonempty header row). -/
def closestHeaderX (xs : List ℚ) (x : ℚ) : ℚ :=
  match xs with
  | [] => 0
  | h :: t => t.foldl (fun prev curr => if |curr - x| < |prev - x| then curr else prev) h

/-- `AIPDFAnalyzer.findAlignedRows`: the row bands strictly below the
header that have enough items and at least 60% of them X-aligned with
some header position. -/
def findAlignedRows (headerRow : List EPC) (allComponents : List EPC) :
    List (List EPC) :=
  let headerY := match headerRow with | h :: _ => h.y | [] => 0
  let headerXPositions := sortByKey id (headerRow.map fun h => h.x)
  let belowComponents := allComponents.filter fun c => c.y > headerY + 20
  let rowGroups := groupByRows belowComponents 10
  rowGroups.filterMap fun rowGroup =>
    let sortedRow := sortByKey (fun c => c.x) rowGroup
    if (sortedRow.length : ℚ) ≥ max 2 ((headerRow.length : ℚ) * (1/2)) then
      let alignmentScore := (sortedRow.filter fun comp =>
        |comp.x - closestHeaderX headerXPositions comp.x| < 20).length
      if (alignmentScore : ℚ) ≥ (sortedRow.length : ℚ) * (3/5) then some sortedRow
      else none
    else none

structure TableBounds where
  x : ℚ
  y : ℚ
  width : ℚ
  height : ℚ
deriving DecidableEq

/-- `TableStructure` of `AIPDFAnalyzer.ts`. -/
structure TableStructure where
  headers : List EPC
  rows : List (List EPC)
  bounds : TableBounds
  columnCount : ℕ
  rowCount : ℕ
deriving DecidableEq

/-- `AIPDFAnalyzer.createTableStructure` (every row is an array here, so
the `Array.isArray` branch of the source always takes the array path). -/
def createTableStructure (headers : List EPC) (rows : List (List EPC)) :
    TableStructure :=
  let allComponents := headers ++ rows.flatten
  let minX := qListMin (allComponents.map fun c => c.x)
  let minY := qListMin (allComponents.map fun c => c.y)
  let maxX := qListMax (allComponents.map fun c => c.x + c.width)
  let maxY := qListMax (allComponents.map fun c => c.y + c.height)
  { headers := headers, rows := rows,
    bounds := { x := minX, y := minY, width := maxX - minX, height := maxY - minY },
    columnCount := headers.length, rowCount := rows.length }

/-- The per-row-band body of the `detectTables` loop: a band of at
least two items whose sorted form looks like a header row, with at
least one aligned row below it, yields a table. -/
def tableOfGroup (components : List EPC) (rowGroup : List EPC) :
    Option TableStructure :=
  if rowGroup.length < 2 then none
  else
    if isLikelyTableHeader (sortByKey (fun c => c.x) rowGroup) then
      if (findAlignedRows (sortByKey (fun c => c.x) rowGroup) components).length > 0 then
        some (createTableStructure (sortByKey (fun c => c.x) rowGroup)
          (findAlignedRows (sortByKey (fun c => c.x) rowGroup) components))
      else none
    else none

/-- `AIPDFAnalyzer.detectTables`, restricted to the table list it
returns (the trailing loop of the source mutates the components'
`context` with table coordinates but does not change the returned
tables; the `processedComponents` set it builds is never read). -/
def detectTables (components : List EPC) : List TableStructure :=
  (groupByRows components 10).filterMap (tableOfGroup components)

/-- A component's box lies inside a bounds box. -/
def boundsContain (b : TableBounds) (c : EPC) : Prop :=
  b.x ≤ c.x ∧ b.y ≤ c.y ∧ c.x + c.width ≤ b.x + b.width ∧
    c.y + c.height ≤ b.y + b.height

/-! ## RDL output projections (`convertToRDLFormats`,
`convertPDFComponentsToHeaderTextboxes`) -/

/-- JS `Number.prototype.toFixed(4)`: sign taken from the value, then
the absolute value rounded to the nearest multiple of `10⁻⁴` with ties
away from zero, printed with exactly four decimals. -/
def toFixed4 (q : ℚ) : String :=
  let n : ℕ := (⌊|q| * 10000 + 1/2⌋).toNat
  let frac := toString (n % 10000)
  (if q < 0 then "-" else "") ++ toString (n / 10000) ++ "." ++
    (⟨List.replicate (4 - frac.length) '0'⟩ ++ frac)

/-- `` `${v.toFixed(4)}in` `` -/
def qToFixed4In (q : ℚ) : String := toFixed4 q ++ "in"

/-- JS number-to-string for the integral values that reach the
`fontSize` template (a non-integral font size would print its decimal
expansion, which this embedding does not model; no verified claim
concerns the `fontSize` string). -/
def qIntStr (q : ℚ) : String := toString q.num

/-- JS `opt || dflt` on an optional string (`""`, like `undefined`, is
falsy). -/
def strFalsyDefault (o : Option String) (dflt : String) : String :=
  match o with
  | some s => if s = "" then dflt else s
  | none => dflt

/-- The `HeaderTextbox` record shape shared by both header projections. -/
structure HeaderTextbox where
  name : String
  value : String
  top : String
  left : String
  width : String
  height : String
  fontSize : String
  fontFamily : String
  fontWeight : String
  color : String
  isItalic : Bool
  type : CLabel
  confidence : ℚ
deriving DecidableEq

/-- One entry of the `headerTextboxes` array of
`AIPDFAnalyzer.convertToRDLFormats`: plain `/72` conversion with
`toFixed(4)` and an `in` suffix, no minimum floors. -/
def rdlHeaderTextbox (component : EPC) (index : ℕ) : HeaderTextbox :=
  { name := strFalsyDefault component.fieldMapping ("Header_" ++ toString (index + 1)),
    value := component.text,
    top := qToFixed4In (component.y / 72),
    left := qToFixed4In (component.x / 72),
    width := qToFixed4In (component.width / 72),
    height := qToFixed4In (component.height / 72),
    fontSize := qIntStr (if component.fontSize = 0 then 10 else component.fontSize) ++ "pt",
    fontFamily := if component.fontFamily = "" then "Arial" else component.fontFamily,
    fontWeight := strFalsyDefault component.fontWeight "Normal",
    color := strFalsyDefault component.color "#000000",
    isItalic := component.isItalic.getD false,
    type := match component.aiClassification with
      | some a => a.label
      | none => CLabel.standaloneText,
    confidence := match component.aiClassification with
      | some a => if a.score = 0 then 1/2 else a.score
      | none => 1/2 }

/-- The `headerTextboxes` projection of `convertToRDLFormats`, as a
function of the analysis result's `headerComponents` (the
`tableBodyData` half of that function is a separate mechanical
projection of the tables, not needed by any claim about header boxes). -/
def convertToRDLHeaderTextboxes (headerComponents : List EPC) : List HeaderTextbox :=
  headerComponents.enum.map fun ic => rdlHeaderTextbox ic.2 ic.1

/-- `RDLGenerator.normalizeFontWeight` (`part_002`). -/
def normalizeFontWeight (fontWeight : String) : String :=
  let normalized : String := ⟨fontWeight.toList.map Char.toLower⟩
  if normalized = "normal" then "Normal"
  else if normalized = "bold" then "Bold"
  else if normalized = "thin" then "Thin"
  else if normalized = "extralight" then "ExtraLight"
  else if normalized = "light" then "Light"
  else if normalized = "medium" then "Medium"
  else if normalized = "semibold" then "SemiBold"
  else if normalized = "extrabold" then "ExtraBold"
  else if normalized = "heavy" then "Heavy"
  else "Normal"

/-- The loosely-typed (`any[]`) component records consumed by
`convertPDFComponentsToHeaderTextboxes`, with the fields it reads. -/
structure PCom where
  text : String := ""
  content : Option String := none
  type : Option CLabel := none
  x : ℚ := 0
  y : ℚ := 0
  width : ℚ := 0
  height : ℚ := 0
  fontSize : ℚ := 0
  fontFamily : String := ""
  fontWeight : Option String := none
  color : Option String := none
  isItalic : Option Bool := none
  confidence : ℚ := 0
deriving DecidableEq

/-- `/^header\s*text$/i.test(t)` -/
def headerTextPattern (l : List Char) : Bool :=
  let u := l.map Char.toUpper
  u.take 6 = "HEADER".toList && (u.drop 6).dropWhile isWsCh = "TEXT".toList

/-- The filter of `convertPDFComponentsToHeaderTextboxes`: non-empty
text that is not the literal placeholder `header text`. -/
def pcomKept (component : PCom) : Bool :=
  component.text ≠ "" && trimStr component.text ≠ "" &&
  (⟨(trimStr component.text).toList.map Char.toLower⟩ : String) ≠ "header text" &&
  !(headerTextPattern (trimStr component.text).toList)

/-- `text.replace(/[^a-zA-Z0-9]/g, '_').substring(0, 20)` -/
def labelNamePart (s : String) : String :=
  ⟨(s.toList.map fun c => if isAlnumCh c then c else '_').take 20⟩

/-- The map body of `convertPDFComponentsToHeaderTextboxes`: floors at
0 for top/left, 0.5 for width, 0.25 for height (with the
`height || fontSize || 12` falsy chain), 4-decimal `in` strings. -/
def pcomHeaderTextbox (component : PCom) (index : ℕ) : HeaderTextbox :=
  { name :=
      if component.type = some CLabel.staticLabel then
        "Label_" ++ labelNamePart component.text ++ "_" ++ toString (index + 1)
      else if component.type = some CLabel.dynamicData then
        "Data_" ++ toString (index + 1)
      else "Text_" ++ toString (index + 1),
    value :=
      if component.text ≠ "" then component.text
      else strFalsyDefault component.content "Header Text",
    top := qToFixed4In (max 0 (component.y / 72)),
    left := qToFixed4In (max 0 (component.x / 72)),
    width := qToFixed4In (max (1/2) (component.width / 72)),
    height := qToFixed4In (max (1/4)
      ((if component.height ≠ 0 then component.height
        else if component.fontSize ≠ 0 then component.fontSize else 12) / 72)),
    fontSize := qIntStr (if component.fontSize = 0 then 10 else component.fontSize) ++ "pt",
    fontFamily := if component.fontFamily = "" then "Arial" else component.fontFamily,
    fontWeight := normalizeFontWeight (strFalsyDefault component.fontWeight "Normal"),
    color := strFalsyDefault component.color "#000000",
    isItalic := component.isItalic.getD false,
    type := (component.type).getD CLabel.standaloneText,
    confidence := if component.confidence = 0 then 1/2 else component.confidence }

/-- `RDLGenerator.convertPDFComponentsToHeaderTextboxes` (`part_002`):
filter, then map with the running index of the filtered list. -/
def convertPDFComponentsToHeaderTextboxes (pdfComponents : List PCom) :
    List HeaderTextbox :=
  (pdfComponents.filter pcomKept).enum.map fun ic => pcomHeaderTextbox ic.2 ic.1

/-! ## Concrete example inputs used by counterexamples and witnesses -/

def cQty : EPC :=
  { text := "Qty", x := 0, y := 0, width := 10, height := 10, fontSize := 10 }

def cHello : EPC :=
  { text := "Hello there", x := 0, y := 0, width := 10, height := 10, fontSize := 10 }

def acrStatic : ACR :=
  { label := CLabel.staticLabel, score := 9/10, reasoning := "", confidence := "high" }

def acrDynamic : ACR :=
  { label := CLabel.dynamicData, score := 85/100, reasoning := "", confidence := "high" }

def cTotal : EPC :=
  { text := "TOTAL:", x := 0, y := 0, width := 10, height := 10, fontSize := 10,
    aiClassification := some acrStatic }

/-- Example list for the table detector: a two-item header band
(`Qty`, `Price`) and a three-item band below it, all three items
X-aligned with some header position. -/
def exH1 : EPC :=
  { text := "Qty", x := 0, y := 0, width := 10, height := 10, fontSize := 10 }
def exH2 : EPC :=
  { text := "Price", x := 100, y := 0, width := 10, height := 10, fontSize := 10 }
def exD1 : EPC :=
  { text := "1", x := 0, y := 50, width := 10, height := 10, fontSize := 10 }
def exD2 : EPC :=
  { text := "2", x := 10, y := 50, width := 10, height := 10, fontSize := 10 }
def exD3 : EPC :=
  { text := "3", x := 100, y := 50, width := 10, height := 10, fontSize := 10 }
def exTableComps : List EPC := [exH1, exH2, exD1, exD2, exD3]

/-- A single region-classifier input item with positive height. -/
def exSingle : EPC :=
  { text := "A", x := 0, y := 8, width := 10, height := 10, fontSize := 10 }

/-- Three zero-height items: `exTieB.y` falls exactly on the header
threshold (`minY = 0`, `maxY = 10`, threshold `= 1.5`). -/
def exTieA : EPC :=
  { text := "A", x := 0, y := 0, width := 10, height := 0, fontSize := 10 }
def exTieB : EPC :=
  { text := "B", x := 0, y := 3/2, width := 10, height := 0, fontSize := 10 }
def exTieC : EPC :=
  { text := "C", x := 0, y := 10, width := 10, height := 0, fontSize := 10 }

/-- Two items of zero height on one line: zero vertical page span. -/
def exZeroSpanA : EPC :=
  { text := "A", x := 0, y := 5, width := 10, height := 0, fontSize := 10 }
def exZeroSpanB : EPC :=
  { text := "B", x := 20, y := 5, width := 10, height := 0, fontSize := 10 }

/-- Pairer example: a label and two valid candidates whose order under
corner distance differs from their order under center distance. -/
def exPairLabel : HC := { x := 0, y := 0, width := 10, height := 10 }
def exPairD1 : HC := { x := 20, y := 0, width := 100, height := 0 }
def exPairD2 : HC := { x := 21, y := 0, width := 0, height := 10 }

/-- A valid candidate whose corner distance (250) passes the validity
filter (≤ 300) but whose proximity `1 - 250/300 = 1/6` fails the 0.3
acceptance threshold. -/
def exFarD : HC := { x := 250, y := 0, width := 10, height := 10 }

/-- The center-to-center squared distance between two `HC` boxes (what
`AIPDFAnalyzer.calculateDistance` would compute for these geometries;
`EnhancedPDFParser.calculateDistance` ignores width and height). -/
def hcCenterDistSq (a b : HC) : ℚ :=
  (a.x + a.width / 2 - (b.x + b.width / 2)) ^ 2 +
    (a.y + a.height / 2 - (b.y + b.height / 2)) ^ 2

/-- A header component of zero width and height for the RDL projection. -/
def exDegenerate : EPC :=
  { text := "X", x := 0, y := 0, width := 0, height := 0, fontSize := 10 }

def exPCom : PCom := { text := "X", width := 0, height := 0 }

-- ===== THEOREM SECTION =====

/-! ## Helper lemmas on characters and the field-name pipeline -/

theorem toNat_ofNat_small {n : Nat} (h : n < 55296) : (Char.ofNat n).toNat = n := by
  have hv : n.isValidChar := Or.inl h
  rw [Char.ofNat, dif_pos hv]
  rfl

theorem char_toNat_inj {a b : Char} (h : a.toNat = b.toNat) : a = b := by
  rw [← Char.ofNat_toNat a, ← Char.ofNat_toNat b, h]

theorem toUpper_toNat_char (c : Char) : (Char.toUpper c).toNat =
    if 97 ≤ c.toNat ∧ c.toNat ≤ 122 then c.toNat - 32 else c.toNat := by
  rw [Char.toUpper]
  split
  · next h => rw [toNat_ofNat_small (by omega)]
  · next h => rfl

theorem toLower_toNat_char (c : Char) : (Char.toLower c).toNat =
    if 65 ≤ c.toNat ∧ c.toNat ≤ 90 then c.toNat + 32 else c.toNat := by
  rw [Char.toLower]
  split
  · next h => rw [toNat_ofNat_small (by omega)]
  · next h => rfl

theorem isAlnumCh_iff (c : Char) : isAlnumCh c = true ↔
    (97 ≤ c.toNat ∧ c.toNat ≤ 122) ∨ (65 ≤ c.toNat ∧ c.toNat ≤ 90) ∨
    (48 ≤ c.toNat ∧ c.toNat ≤ 57) := by
  simp only [isAlnumCh, isLowerCh, isUpperCh, isDigitCh, Bool.or_eq_true,
    Bool.and_eq_true, decide_eq_true_eq]
  tauto

theorem isWsCh_isAlnumCh {c : Char} (h : isWsCh c = true) : isAlnumCh c = false := by
  simp only [isWsCh, Bool.or_eq_true, decide_eq_true_eq] at h
  rcases h with ((((h | h) | h) | h) | h) | h <;> subst h <;> decide

theorem isAlnumCh_not_ws {c : Char} (h : isAlnumCh c = true) : isWsCh c = false := by
  cases hw : isWsCh c
  · rfl
  · rw [isWsCh_isAlnumCh hw] at h; exact absurd h (by simp)

theorem toUpper_alnum {c : Char} (h : isAlnumCh c = true) :
    isAlnumCh (Char.toUpper c) = true := by
  rw [isAlnumCh_iff] at h ⊢
  have h1 := toUpper_toNat_char c
  split at h1 <;> omega

theorem toLower_alnum {c : Char} (h : isAlnumCh c = true) :
    isAlnumCh (Char.toLower c) = true := by
  rw [isAlnumCh_iff] at h ⊢
  have h1 := toLower_toNat_char c
  split at h1 <;> omega

theorem toUpper_toUpper {c : Char} : Char.toUpper (Char.toUpper c) = Char.toUpper c := by
  apply char_toNat_inj
  have h1 := toUpper_toNat_char c
  have h2 := toUpper_toNat_char (Char.toUpper c)
  split at h1 <;> split at h2 <;> omega

theorem toLower_toLower {c : Char} : Char.toLower (Char.toLower c) = Char.toLower c := by
  apply char_toNat_inj
  have h1 := toLower_toNat_char c
  have h2 := toLower_toNat_char (Char.toLower c)
  split at h1 <;> split at h2 <;> omega

theorem toLower_toUpper_toLower {c : Char} :
    Char.toLower (Char.toUpper (Char.toLower c)) = Char.toLower c := by
  apply char_toNat_inj
  have h1 := toLower_toNat_char c
  have h2 := toUpper_toNat_char (Char.toLower c)
  have h3 := toLower_toNat_char (Char.toUpper (Char.toLower c))
  split at h1 <;> split at h2 <;> split at h3 <;> omega

theorem trimChars_all_ws {l : List Char} (h : ∀ c ∈ l, isWsCh c = true) :
    trimChars l = [] := by
  have hd : l.dropWhile isWsCh = [] := List.dropWhile_eq_nil_iff.mpr h
  simp [trimChars, hd]

theorem dropWhile_no_ws {l : List Char} (h : ∀ c ∈ l, isWsCh c = false) :
    l.dropWhile isWsCh = l := by
  cases l with
  | nil => rfl
  | cons c rest =>
    rw [List.dropWhile_cons_of_neg]
    simp [h c (by simp)]

theorem trimChars_no_ws {l : List Char} (h : ∀ c ∈ l, isWsCh c = false) :
    trimChars l = l := by
  rw [trimChars, dropWhile_no_ws h, dropWhile_no_ws, List.reverse_reverse]
  intro c hc
  exact h c (by simpa using hc)

theorem splitWsCh_no_ws {l : List Char} (hne : l ≠ []) (h : ∀ c ∈ l, isWsCh c = false) :
    splitWsCh l = [l] := by
  induction l with
  | nil => exact absurd rfl hne
  | cons c rest ih =>
    cases rest with
    | nil => simp [splitWsCh, h c (by simp)]
    | cons r rs =>
      rw [splitWsCh, if_neg (by simp [h c (by simp)]),
        ih (by simp) fun x hx => h x (by simp [hx])]
      rfl

theorem capitalizeWord_alnum {l : List Char} (h : ∀ c ∈ l, isAlnumCh c = true) :
    ∀ c ∈ capitalizeWord l, isAlnumCh c = true := by
  cases l with
  | nil => simp [capitalizeWord]
  | cons c rest =>
    intro d hd
    rw [capitalizeWord] at hd
    rcases List.mem_cons.mp hd with h1 | h2
    · subst h1; exact toUpper_alnum (h c (by simp))
    · obtain ⟨e, he, rfl⟩ := List.mem_map.mp h2
      exact toLower_alnum (h e (by simp [he]))

theorem capitalizeWord_capitalizeWord {l : List Char} :
    capitalizeWord (capitalizeWord l) = capitalizeWord l := by
  cases l with
  | nil => rfl
  | cons c rest =>
    rw [capitalizeWord, capitalizeWord, toUpper_toUpper, List.map_map]
    congr 1
    apply List.map_congr_left
    intro a _
    exact toLower_toLower

theorem capitalizeWord_ne_nil {l : List Char} (h : l ≠ []) : capitalizeWord l ≠ [] := by
  cases l with
  | nil => exact absurd rfl h
  | cons c rest => simp [capitalizeWord]

theorem string_mk_toList (l : List Char) : (⟨l⟩ : String).toList = l := rfl

theorem string_mk_ne_empty {l : List Char} (h : l ≠ []) : (⟨l⟩ : String) ≠ "" := by
  intro hc
  apply h
  have : (⟨l⟩ : String).data = ("" : String).data := by rw [hc]
  simpa using this

theorem string_toList_ne_nil {s : String} (h : s ≠ "") : s.toList ≠ [] := by
  intro hc
  apply h
  cases s with
  | mk data =>
    have : data = [] := by simpa [String.toList] using hc
    rw [this]

/-- On purely alphanumeric input the whole pipeline is just `capitalizeWord`. -/
theorem fieldNamePipeline_alnum {l : List Char} (h : ∀ c ∈ l, isAlnumCh c = true) :
    fieldNamePipeline l = capitalizeWord l := by
  have hfilter : (l.filter fun c => isAlnumCh c || isWsCh c) = l := by
    apply List.filter_eq_self.mpr
    intro c hc
    simp [h c hc]
  have hnws : ∀ c ∈ l, isWsCh c = false := fun c hc => isAlnumCh_not_ws (h c hc)
  rw [fieldNamePipeline, hfilter, trimChars_no_ws hnws]
  cases hl : l with
  | nil => rfl
  | cons c rest =>
    rw [← hl, splitWsCh_no_ws (by simp [hl]) hnws]
    simp only [List.map_cons, List.map_nil, List.flatten_cons, List.flatten_nil,
      List.append_nil]
    apply List.filter_eq_self.mpr
    intro d hd
    have := capitalizeWord_alnum h d hd
    simp [isAlnumCh_not_ws this]

theorem fieldNamePipeline_no_alnum {l : List Char} (h : ∀ c ∈ l, isAlnumCh c = false) :
    fieldNamePipeline l = [] := by
  have hfilter : (l.filter fun c => isAlnumCh c || isWsCh c) = l.filter isWsCh := by
    apply List.filter_congr
    intro c hc
    simp [h c hc]
  rw [fieldNamePipeline, hfilter, trimChars_all_ws (by
    intro c hc
    exact (List.mem_filter.mp hc).2)]
  rfl

/-- The pipeline output never contains whitespace and is always alphanumeric. -/
theorem fieldNamePipeline_out_alnum (l : List Char) :
    ∀ c ∈ fieldNamePipeline l, isAlnumCh c = true ∨ isWsCh c = false := by
  intro c hc
  right
  have := (List.mem_filter.mp hc).2
  simpa using this

theorem sanitizeFieldName_ne_empty (s : String) : sanitizeFieldName s ≠ "" := by
  rw [sanitizeFieldName]
  split
  · decide
  · show (if fieldNamePipeline s.toList = [] then ("Field1" : String)
      else ⟨fieldNamePipeline s.toList⟩) ≠ ""
    split
    · decide
    · next h2 => exact string_mk_ne_empty h2

theorem sanitizeFieldName_alnum {s : String} (hs : ∀ c ∈ s.toList, isAlnumCh c = true)
    (hne : s ≠ "") : sanitizeFieldName s = ⟨capitalizeWord s.toList⟩ := by
  rw [sanitizeFieldName, if_neg hne]
  show (if fieldNamePipeline s.toList = [] then _ else _) = _
  rw [fieldNamePipeline_alnum hs,
    if_neg (capitalizeWord_ne_nil (string_toList_ne_nil hne))]

/-! ## Helper lemmas: classifier score bounds and label range -/

theorem erbc_score_bounds (text : String) (c : EPC) :
    0 ≤ (enhancedRuleBasedClassification text c).score ∧
      (enhancedRuleBasedClassification text c).score ≤ 1 := by
  unfold enhancedRuleBasedClassification
  split_ifs <;> norm_num

theorem combine_score_bounds {r a : ACR} (hr : 0 ≤ r.score ∧ r.score ≤ 1)
    (ha : 0 ≤ a.score ∧ a.score ≤ 1) :
    0 ≤ (combineClassifications r a).score ∧ (combineClassifications r a).score ≤ 1 := by
  unfold combineClassifications
  split_ifs
  · constructor
    · simp only
      nlinarith [hr.1, hr.2, ha.1, ha.2]
    · simp only
      nlinarith [hr.1, hr.2, ha.1, ha.2]
  · exact hr
  · exact ha

theorem combine_label_mem (r a : ACR) :
    (combineClassifications r a).label = r.label ∨
      (combineClassifications r a).label = a.label := by
  unfold combineClassifications
  split_ifs <;> simp

theorem zeroShot_score (l : String) (s : ℚ) : (aiClassificationZeroShot l s).score = s := rfl

theorem erbc_label_range (text : String) (c : EPC) :
    (enhancedRuleBasedClassification text c).label = CLabel.staticLabel ∨
    (enhancedRuleBasedClassification text c).label = CLabel.dynamicData ∨
    (enhancedRuleBasedClassification text c).label = CLabel.tableHeader ∨
    (enhancedRuleBasedClassification text c).label = CLabel.standaloneText := by
  unfold enhancedRuleBasedClassification
  split_ifs <;> simp

theorem zeroShot_label_range (l : String) (s : ℚ) :
    (aiClassificationZeroShot l s).label = CLabel.staticLabel ∨
    (aiClassificationZeroShot l s).label = CLabel.dynamicData ∨
    (aiClassificationZeroShot l s).label = CLabel.tableHeader ∨
    (aiClassificationZeroShot l s).label = CLabel.standaloneText := by
  unfold aiClassificationZeroShot
  split_ifs <;> simp

theorem classify_unavailable (c : EPC) :
    classifyTextComponent c ExternalOutcome.unavailable =
      enhancedRuleBasedClassification (trimStr c.text) c := by
  show (if _ > (8:ℚ)/10 then enhancedRuleBasedClassification (trimStr c.text) c
    else enhancedRuleBasedClassification (trimStr c.text) c) = _
  split <;> rfl

theorem classify_failure (c : EPC) :
    classifyTextComponent c ExternalOutcome.failure =
      enhancedRuleBasedClassification (trimStr c.text) c := by
  show (if _ > (8:ℚ)/10 then enhancedRuleBasedClassification (trimStr c.text) c
    else enhancedRuleBasedClassification (trimStr c.text) c) = _
  split <;> rfl

theorem classify_success (c : EPC) (l : String) (s : ℚ) :
    classifyTextComponent c (ExternalOutcome.success l s) =
      if (enhancedRuleBasedClassification (trimStr c.text) c).score > 8/10
      then enhancedRuleBasedClassification (trimStr c.text) c
      else combineClassifications (enhancedRuleBasedClassification (trimStr c.text) c)
        (aiClassificationZeroShot l s) := rfl

theorem classify_label_range (c : EPC) (ext : ExternalOutcome) :
    (classifyTextComponent c ext).label = CLabel.staticLabel ∨
    (classifyTextComponent c ext).label = CLabel.dynamicData ∨
    (classifyTextComponent c ext).label = CLabel.tableHeader ∨
    (classifyTextComponent c ext).label = CLabel.standaloneText := by
  cases ext with
  | unavailable => rw [classify_unavailable]; exact erbc_label_range _ c
  | failure => rw [classify_failure]; exact erbc_label_range _ c
  | success l s =>
    rw [classify_success]
    split
    · exact erbc_label_range _ c
    · rcases combine_label_mem (enhancedRuleBasedClassification (trimStr c.text) c)
        (aiClassificationZeroShot l s) with h | h <;> rw [h]
      · exact erbc_label_range _ c
      · exact zeroShot_label_range l s

-- ===== CLAIM THEOREMS =====

/-- C1 counterexample: the claim fails on the code.  `generateFieldName`
returns the empty string (not `"Field1"`) on empty input, and neither
generator is idempotent: both send `"SHIP TO"` to `"ShipTo"`, whose
second application yields `"Shipto"`. -/
theorem C1_counterexample :
    generateFieldName "" = "" ∧
    generateFieldName "SHIP TO" = "ShipTo" ∧
    generateFieldName (generateFieldName "SHIP TO") ≠ generateFieldName "SHIP TO" ∧
    sanitizeFieldName (sanitizeFieldName "SHIP TO") ≠ sanitizeFieldName "SHIP TO" := by
  refine ⟨rfl, rfl, ?_, ?_⟩ <;> decide

/-- C1 amended: both field-name generators are deterministic (pure
functions of the input text).  On input that is empty, whitespace-only
or wholly non-alphanumeric, `sanitizeFieldName` returns the placeholder
`"Field1"` and never the empty string, while `generateFieldName`
returns the empty string.  Neither function is idempotent in general;
both are idempotent on input consisting solely of alphanumeric
characters. -/
theorem C1_field_name_generators :
    (∀ s : String, generateFieldName s = generateFieldName s ∧
      sanitizeFieldName s = sanitizeFieldName s) ∧
    (∀ s : String, sanitizeFieldName s ≠ "") ∧
    (∀ s : String, (∀ c ∈ s.toList, isAlnumCh c = false) →
      sanitizeFieldName s = "Field1" ∧ generateFieldName s = "") ∧
    (∀ s : String, (∀ c ∈ s.toList, isAlnumCh c = true) →
      generateFieldName (generateFieldName s) = generateFieldName s ∧
      sanitizeFieldName (sanitizeFieldName s) = sanitizeFieldName s) := by
  refine ⟨fun s => ⟨rfl, rfl⟩, sanitizeFieldName_ne_empty, ?_, ?_⟩
  · intro s hs
    have hpipe : fieldNamePipeline s.toList = [] := fieldNamePipeline_no_alnum hs
    constructor
    · rw [sanitizeFieldName]
      split
      · rfl
      · rw [if_pos hpipe]
    · rw [generateFieldName, hpipe]
  · intro s hs
    have hcap_alnum : ∀ c ∈ capitalizeWord s.toList, isAlnumCh c = true :=
      capitalizeWord_alnum hs
    constructor
    · have hg : generateFieldName s = ⟨capitalizeWord s.toList⟩ := by
        rw [generateFieldName, fieldNamePipeline_alnum hs]
      rw [hg, generateFieldName, string_mk_toList, fieldNamePipeline_alnum hcap_alnum,
        capitalizeWord_capitalizeWord]
    · by_cases hne : s = ""
      · subst hne; decide
      · have hcapne : capitalizeWord s.toList ≠ [] :=
          capitalizeWord_ne_nil (string_toList_ne_nil hne)
        have h2 := sanitizeFieldName_alnum (s := ⟨capitalizeWord s.toList⟩)
          (by rw [string_mk_toList]; exact hcap_alnum) (string_mk_ne_empty hcapne)
        rw [sanitizeFieldName_alnum hs hne, h2, string_mk_toList,
          capitalizeWord_capitalizeWord]

/-- C1 witness: the amended theorem applied at concrete inputs. -/
theorem C1_field_name_generators_witness :
    sanitizeFieldName "!!!" = "Field1" ∧ generateFieldName "!!!" = "" ∧
    generateFieldName (generateFieldName "Invoice") = generateFieldName "Invoice" := by
  refine ⟨(C1_field_name_generators.2.2.1 "!!!" (by decide)).1,
          (C1_field_name_generators.2.2.1 "!!!" (by decide)).2,
          (C1_field_name_generators.2.2.2 "Invoice" (by decide)).1⟩

/-- C6: every classification confidence lies in [0,1] — for the
rule-based classifier unconditionally, and for the full classifier
(including the combination step) whenever the external classifier's
score is itself in [0,1], it being an opaque collaborator whose scores
the pipeline does not clamp; and the rule tiers are checked in priority
order: a text that matches the table-header vocabulary is classified
`table-header` by the first tier and never `static-label`. -/
theorem C6_classifier_confidence_bounds :
    (∀ (text : String) (c : EPC),
        0 ≤ (enhancedRuleBasedClassification text c).score ∧
        (enhancedRuleBasedClassification text c).score ≤ 1) ∧
    (∀ (text : String) (c : EPC), tableHeaderMatch text = true →
        (enhancedRuleBasedClassification text c).label = CLabel.tableHeader ∧
        (enhancedRuleBasedClassification text c).label ≠ CLabel.staticLabel) ∧
    (∀ (c : EPC) (ext : ExternalOutcome),
        (∀ l s, ext = ExternalOutcome.success l s → 0 ≤ s ∧ s ≤ 1) →
        0 ≤ (classifyTextComponent c ext).score ∧
          (classifyTextComponent c ext).score ≤ 1) := by
  refine ⟨erbc_score_bounds, ?_, ?_⟩
  · intro text c h
    unfold enhancedRuleBasedClassification
    rw [if_pos h]
    exact ⟨rfl, by simp⟩
  · intro c ext hext
    cases ext with
    | unavailable => rw [classify_unavailable]; exact erbc_score_bounds _ c
    | failure => rw [classify_failure]; exact erbc_score_bounds _ c
    | success l s =>
      rw [classify_success]
      split
      · exact erbc_score_bounds _ c
      · exact combine_score_bounds (erbc_score_bounds _ c)
          (by rw [zeroShot_score]; exact hext l s rfl)

/-- C6 witness: the bounds and the tier priority at concrete inputs. -/
theorem C6_classifier_confidence_bounds_witness :
    ((enhancedRuleBasedClassification "Qty" cQty).label = CLabel.tableHeader ∧
      (enhancedRuleBasedClassification "Qty" cQty).label ≠ CLabel.staticLabel) ∧
    (0 ≤ (classifyTextComponent cHello
        (ExternalOutcome.success "data value" (1/2))).score ∧
      (classifyTextComponent cHello
        (ExternalOutcome.success "data value" (1/2))).score ≤ 1) :=
  ⟨C6_classifier_confidence_bounds.2.1 "Qty" cQty (by decide),
   C6_classifier_confidence_bounds.2.2 cHello _ (by
    intro l s h
    cases h
    norm_num)⟩

/-- C7: when the external zero-shot classifier is unavailable (the
model never initialized) or throws, `classifyTextComponent` still
returns a result, and that result is exactly the pure rule-based
classification; no failure escapes to the caller (the embedding is a
total function in these cases). -/
theorem C7_external_failure_fallback :
    ∀ (c : EPC) (ext : ExternalOutcome),
      ext = ExternalOutcome.unavailable ∨ ext = ExternalOutcome.failure →
      classifyTextComponent c ext =
        enhancedRuleBasedClassification (trimStr c.text) c := by
  intro c ext h
  rcases h with rfl | rfl
  · exact classify_unavailable c
  · exact classify_failure c

/-- C7 witness: the fallback at a concrete component with a throwing
external classifier. -/
theorem C7_external_failure_fallback_witness :
    classifyTextComponent cHello ExternalOutcome.failure =
      enhancedRuleBasedClassification (trimStr cHello.text) cHello :=
  C7_external_failure_fallback cHello ExternalOutcome.failure (Or.inr rfl)

/-- C10: every classification the classifier can produce — rule-based,
zero-shot-mapped, or combined — has a label in the four-value set
{static-label, dynamic-data, table-header, standalone-text}; the
`table-data` and `form-label` values admitted by the
`AIClassificationResult` type are never produced, so on any component
list whose classifications come from the classifier the pairing
filters reduce to their `static-label` and `dynamic-data` branches
alone. -/
theorem C10_label_range :
    (∀ (text : String) (c : EPC),
      (enhancedRuleBasedClassification text c).label ≠ CLabel.tableData ∧
      (enhancedRuleBasedClassification text c).label ≠ CLabel.formLabel) ∧
    (∀ (l : String) (s : ℚ),
      (aiClassificationZeroShot l s).label ≠ CLabel.tableData ∧
      (aiClassificationZeroShot l s).label ≠ CLabel.formLabel) ∧
    (∀ (c : EPC) (ext : ExternalOutcome),
      (classifyTextComponent c ext).label = CLabel.staticLabel ∨
      (classifyTextComponent c ext).label = CLabel.dynamicData ∨
      (classifyTextComponent c ext).label = CLabel.tableHeader ∨
      (classifyTextComponent c ext).label = CLabel.standaloneText) ∧
    (∀ (comps : List EPC) (ext : ℕ → ExternalOutcome),
      ∀ x ∈ analyzeComponents comps ext, ∀ a, x.aiClassification = some a →
        a.label ≠ CLabel.tableData ∧ a.label ≠ CLabel.formLabel) ∧
    (∀ comps : List (ℕ × EPC),
      (∀ ic ∈ comps, ∀ a, ic.2.aiClassification = some a →
        a.label ≠ CLabel.tableData ∧ a.label ≠ CLabel.formLabel) →
      labelsFilterAI comps = comps.filter (fun ic =>
        match ic.2.aiClassification with
        | some a => a.label = CLabel.staticLabel
        | none => false) ∧
      dataFilterAI comps = comps.filter (fun ic =>
        match ic.2.aiClassification with
        | some a => a.label = CLabel.dynamicData
        | none => false)) := by
  refine ⟨?_, ?_, classify_label_range, ?_, ?_⟩
  · intro text c
    rcases erbc_label_range text c with h | h | h | h <;> rw [h] <;> exact ⟨by simp, by simp⟩
  · intro l s
    rcases zeroShot_label_range l s with h | h | h | h <;> rw [h] <;> exact ⟨by simp, by simp⟩
  · intro comps ext x hx a ha
    simp only [analyzeComponents, List.mem_map] at hx
    obtain ⟨ic, _, rfl⟩ := hx
    simp only at ha
    rw [Option.some_inj] at ha
    subst ha
    rcases classify_label_range ic.2 (ext ic.1) with h | h | h | h <;> rw [h] <;>
      exact ⟨by simp, by simp⟩
  · intro comps hcomps
    constructor
    · apply List.filter_congr
      intro ic hic
      cases hacase : ic.2.aiClassification with
      | none => simp [labelsFilterAI]
      | some a =>
        have := hcomps ic hic a hacase
        simp only
        cases hl : a.label <;> simp_all
    · apply List.filter_congr
      intro ic hic
      cases hacase : ic.2.aiClassification with
      | none => simp [dataFilterAI]
      | some a =>
        have := hcomps ic hic a hacase
        simp only
        cases hl : a.label <;> simp_all

/-- C10 witness: the filter reduction at a concrete classified list. -/
theorem C10_label_range_witness :
    labelsFilterAI [(0, cTotal)] =
      [(0, cTotal)].filter (fun ic =>
        match ic.2.aiClassification with
        | some a => a.label = CLabel.staticLabel
        | none => false) :=
  (C10_label_range.2.2.2.2 [(0, cTotal)] (by decide)).1

/-! ## Helper lemmas: list minimum and maximum, region partition -/

theorem foldl_min_le_init (xs : List ℚ) (init : ℚ) : xs.foldl min init ≤ init := by
  induction xs generalizing init with
  | nil => simp
  | cons x xs ih =>
    simp only [List.foldl_cons]
    exact le_trans (ih _) (min_le_left _ _)

theorem foldl_min_le_mem {xs : List ℚ} {a : ℚ} (init : ℚ) (h : a ∈ xs) :
    xs.foldl min init ≤ a := by
  induction xs generalizing init with
  | nil => cases h
  | cons x xs ih =>
    rcases List.mem_cons.mp h with rfl | h2
    · exact le_trans (foldl_min_le_init xs _) (min_le_right _ _)
    · exact ih _ h2

theorem qListMin_le {l : List ℚ} {a : ℚ} (h : a ∈ l) : qListMin l ≤ a := by
  cases l with
  | nil => cases h
  | cons x xs =>
    rcases List.mem_cons.mp h with rfl | h2
    · exact foldl_min_le_init xs a
    · exact foldl_min_le_mem x h2

theorem init_le_foldl_max (xs : List ℚ) (init : ℚ) : init ≤ xs.foldl max init := by
  induction xs generalizing init with
  | nil => simp
  | cons x xs ih =>
    simp only [List.foldl_cons]
    exact le_trans (le_max_left _ _) (ih _)

theorem mem_le_foldl_max {xs : List ℚ} {a : ℚ} (init : ℚ) (h : a ∈ xs) :
    a ≤ xs.foldl max init := by
  induction xs generalizing init with
  | nil => cases h
  | cons x xs ih =>
    rcases List.mem_cons.mp h with rfl | h2
    · exact le_trans (le_max_right _ _) (init_le_foldl_max xs _)
    · exact ih _ h2

theorem le_qListMax {l : List ℚ} {a : ℚ} (h : a ∈ l) : a ≤ qListMax l := by
  cases l with
  | nil => cases h
  | cons x xs =>
    rcases List.mem_cons.mp h with rfl | h2
    · exact init_le_foldl_max xs a
    · exact mem_le_foldl_max x h2

theorem filter_three_perm {α : Type} (p q r : α → Bool) (l : List α)
    (h : ∀ c ∈ l, (p c = true ∧ q c = false ∧ r c = false) ∨
      (p c = false ∧ q c = true ∧ r c = false) ∨
      (p c = false ∧ q c = false ∧ r c = true)) :
    (l.filter p ++ (l.filter q ++ l.filter r)).Perm l := by
  have h1 : ((l.filter p) ++ (l.filter fun x => !p x)).Perm l :=
    List.filter_append_perm p l
  have h2 : (((l.filter fun x => !p x).filter q ++
      ((l.filter fun x => !p x).filter fun x => !q x))).Perm
      (l.filter fun x => !p x) := List.filter_append_perm q _
  have e1 : (l.filter fun x => !p x).filter q = l.filter q := by
    rw [List.filter_filter]
    apply List.filter_congr
    intro c hc
    rcases h c hc with ⟨hp, hq, _⟩ | ⟨hp, hq, _⟩ | ⟨hp, hq, _⟩ <;> simp [hp, hq]
  have e2 : ((l.filter fun x => !p x).filter fun x => !q x) = l.filter r := by
    rw [List.filter_filter]
    apply List.filter_congr
    intro c hc
    rcases h c hc with ⟨hp, hq, hr⟩ | ⟨hp, hq, hr⟩ | ⟨hp, hq, hr⟩ <;> simp [hp, hq, hr]
  rw [← e1, ← e2]
  exact (List.Perm.append_left _ h2).trans h1

theorem analyzeDocumentStructure_ne_nil {comps : List EPC} (hne : comps ≠ []) :
    analyzeDocumentStructure comps =
      comps.map fun c => { c with rdlType := some (regionOf comps c) } := by
  unfold analyzeDocumentStructure
  rw [if_neg (by simpa using hne)]

theorem analyzeDocumentStructure_region {comps : List EPC} {c : EPC}
    (h : c ∈ analyzeDocumentStructure comps) :
    ∃ orig ∈ comps, c = { orig with rdlType := some (regionOf comps orig) } := by
  by_cases hne : comps = []
  · subst hne
    cases h
  · rw [analyzeDocumentStructure_ne_nil hne] at h
    obtain ⟨orig, ho, rfl⟩ := List.mem_map.mp h
    exact ⟨orig, ho, rfl⟩

/-- C8: the region classifier assigns every item exactly one region —
header when `y < headerThreshold`, footer when
`y + height > footerThreshold`, else body — and the three region
filters of the analysis result partition the classified components
with no overlap and no omission. -/
theorem C8_region_partition :
    ∀ comps : List EPC,
      (comps ≠ [] → analyzeDocumentStructure comps =
        comps.map fun c => { c with rdlType := some (regionOf comps c) }) ∧
      (∀ c ∈ analyzeDocumentStructure comps, ∃! r : Region, c.rdlType = some r) ∧
      (regionFilter Region.header (analyzeDocumentStructure comps) ++
        (regionFilter Region.body (analyzeDocumentStructure comps) ++
          regionFilter Region.footer (analyzeDocumentStructure comps))).Perm
        (analyzeDocumentStructure comps) := by
  intro comps
  refine ⟨analyzeDocumentStructure_ne_nil, ?_, ?_⟩
  · intro c hc
    obtain ⟨orig, _, rfl⟩ := analyzeDocumentStructure_region hc
    exact ⟨regionOf comps orig, rfl, fun r hr => by simpa using hr.symm⟩
  · apply filter_three_perm
    intro c hc
    obtain ⟨orig, _, rfl⟩ := analyzeDocumentStructure_region hc
    cases regionOf comps orig <;> simp

/-- C8 witness: the partition at a concrete three-item input. -/
theorem C8_region_partition_witness :
    analyzeDocumentStructure [exTieA, exTieB, exTieC] =
      [exTieA, exTieB, exTieC].map
        (fun c => { c with rdlType := some (regionOf [exTieA, exTieB, exTieC] c) }) ∧
    ∃! r : Region, (({ exTieA with
      rdlType := some (regionOf [exTieA, exTieB, exTieC] exTieA) } : EPC)).rdlType = some r :=
  ⟨(C8_region_partition [exTieA, exTieB, exTieC]).1 (by simp),
   (C8_region_partition [exTieA, exTieB, exTieC]).2.1 _ (by
    rw [analyzeDocumentStructure_ne_nil (by simp)]
    exact List.mem_map_of_mem _ (List.mem_cons_self _ _))⟩

/-- C9 counterexample: a single item of positive height is classified
`header`, not `body` (its page span equals its height, which is
positive, so `y < headerThreshold` holds), and an item whose `y` sits
exactly on the header threshold is classified `body`, not `header` —
equality ties resolve away from `header`, not toward it. -/
theorem C9_counterexample :
    (analyzeDocumentStructure [exSingle]).map (fun c => c.rdlType) =
        [some Region.header] ∧
    exTieB.y = headerThresholdOf [exTieA, exTieB, exTieC] ∧
    (analyzeDocumentStructure [exTieA, exTieB, exTieC]).map (fun c => c.rdlType) =
      [some Region.header, some Region.body, some Region.footer] := by
  refine ⟨?_, ?_, ?_⟩ <;>
    norm_num [analyzeDocumentStructure, regionOf, headerThresholdOf, footerThresholdOf,
      pageMinY, pageMaxY, qListMin, qListMax, exSingle, exTieA, exTieB, exTieC]

/-- C9 amended: when the items span zero vertical extent
(`pageSpan = 0`) every item is classified `body`; but a single item of
positive height has `pageSpan = height > 0` and is classified `header`;
and an item whose position equals the header threshold exactly is
resolved away from `header` (toward the footer test, then `body`). -/
theorem C9_zero_span :
    (∀ comps : List EPC, pageMaxY comps = pageMinY comps →
      ∀ c ∈ analyzeDocumentStructure comps, c.rdlType = some Region.body) ∧
    (∀ c : EPC, 0 < c.height →
      (analyzeDocumentStructure [c]).map (fun d => d.rdlType) = [some Region.header]) ∧
    (∀ (comps : List EPC) (c : EPC), c.y = headerThresholdOf comps →
      regionOf comps c ≠ Region.header) := by
  refine ⟨?_, ?_, ?_⟩
  · intro comps hspan c hc
    obtain ⟨orig, ho, rfl⟩ := analyzeDocumentStructure_region hc
    have hy : pageMinY comps ≤ orig.y :=
      qListMin_le (List.mem_map.mpr ⟨orig, ho, rfl⟩)
    have hyh : orig.y + orig.height ≤ pageMaxY comps :=
      le_qListMax (List.mem_map.mpr ⟨orig, ho, rfl⟩)
    have hreg : regionOf comps orig = Region.body := by
      unfold regionOf headerThresholdOf footerThresholdOf
      rw [hspan]
      rw [if_neg (by linarith), if_neg (by linarith)]
    rw [hreg]
  · intro c hc
    have hmin : pageMinY [c] = c.y := rfl
    have hmax : pageMaxY [c] = c.y + c.height := rfl
    have hreg : regionOf [c] c = Region.header := by
      unfold regionOf headerThresholdOf
      rw [if_pos]
      rw [hmin, hmax]
      linarith
    rw [analyzeDocumentStructure_ne_nil (by simp), List.map_cons, List.map_nil]
    simp [hreg]
  · intro comps c hy
    unfold regionOf
    rw [if_neg (by rw [hy]; exact lt_irrefl _)]
    split <;> simp

/-- C9 witness: the amended statement applied at concrete inputs. -/
theorem C9_zero_span_witness :
    (∀ c ∈ analyzeDocumentStructure [exZeroSpanA, exZeroSpanB],
      c.rdlType = some Region.body) ∧
    (analyzeDocumentStructure [exSingle]).map (fun d => d.rdlType) =
      [some Region.header] ∧
    regionOf [exTieA, exTieB, exTieC] exTieB ≠ Region.header :=
  ⟨(C9_zero_span.1 [exZeroSpanA, exZeroSpanB]
      (by norm_num [pageMaxY, pageMinY, qListMin, qListMax, exZeroSpanA, exZeroSpanB])),
   C9_zero_span.2.1 exSingle (by norm_num [exSingle]),
   C9_zero_span.2.2 [exTieA, exTieB, exTieC] exTieB
      (by norm_num [headerThresholdOf, pageMaxY, pageMinY, qListMin, qListMax,
        exTieA, exTieB, exTieC])⟩

/-! ## Helper lemmas: table structure well-formedness -/

theorem insertLe_length {α : Type} (key : α → ℚ) (a : α) (l : List α) :
    (insertLe key a l).length = l.length + 1 := by
  induction l with
  | nil => rfl
  | cons b rest ih =>
    unfold insertLe
    split
    · simp [ih]
    · simp

theorem sortByKey_length {α : Type} (key : α → ℚ) (l : List α) :
    (sortByKey key l).length = l.length := by
  suffices h : ∀ acc : List α,
      (l.foldl (fun acc a => insertLe key a acc) acc).length = acc.length + l.length by
    simpa using h []
  induction l with
  | nil => simp
  | cons a rest ih =>
    intro acc
    simp only [List.foldl_cons, ih, insertLe_length, List.length_cons]
    omega

theorem createTableStructure_bounds {headers : List EPC} {rows : List (List EPC)}
    {c : EPC} (hc : c ∈ headers ++ rows.flatten) :
    boundsContain (createTableStructure headers rows).bounds c := by
  have h1 : qListMin ((headers ++ rows.flatten).map fun d => d.x) ≤ c.x :=
    qListMin_le (List.mem_map_of_mem _ hc)
  have h2 : qListMin ((headers ++ rows.flatten).map fun d => d.y) ≤ c.y :=
    qListMin_le (List.mem_map_of_mem _ hc)
  have h3 : c.x + c.width ≤ qListMax ((headers ++ rows.flatten).map fun d => d.x + d.width) :=
    le_qListMax (List.mem_map_of_mem _ hc)
  have h4 : c.y + c.height ≤ qListMax ((headers ++ rows.flatten).map fun d => d.y + d.height) :=
    le_qListMax (List.mem_map_of_mem _ hc)
  exact ⟨h1, h2, by dsimp only [createTableStructure]; linarith,
    by dsimp only [createTableStructure]; linarith⟩

theorem detectTables_shape {comps : List EPC} {t : TableStructure}
    (ht : t ∈ detectTables comps) :
    ∃ g, 2 ≤ g.length ∧
      t = createTableStructure (sortByKey (fun c => c.x) g)
        (findAlignedRows (sortByKey (fun c => c.x) g) comps) := by
  obtain ⟨g, _, hsome⟩ := List.mem_filterMap.mp ht
  unfold tableOfGroup at hsome
  split at hsome
  · exact absurd hsome (by simp)
  · next hlen =>
    split at hsome
    · split at hsome
      · exact ⟨g, by omega, (Option.some_inj.mp hsome).symm⟩
      · exact absurd hsome (by simp)
    · exact absurd hsome (by simp)

/-- C2 counterexample: `detectTables` can return a table whose data row
is longer than `columnCount` — the row-alignment test only requires 60%
of a row's items to align with some header X position, and never caps
the row length at the header count.  On `exTableComps` (two headers,
one below-band of three aligned items) the single detected table has
`columnCount = 2` and a row of length 3. -/
theorem C2_counterexample :
    (detectTables exTableComps).map (fun t => (t.columnCount, t.rows.map List.length)) =
        [(2, [3])] ∧
    ((detectTables exTableComps).any fun t =>
      t.rows.any fun r => decide (t.columnCount < r.length)) = true := by
  have h : detectTables exTableComps =
      [createTableStructure [exH1, exH2] [[exD1, exD2, exD3]]] := by
    norm_num [detectTables, exTableComps, groupByRows, groupByRowsAux, sortByKey, insertLe,
      tableOfGroup, isLikelyTableHeader, typicalHeaderStart, trimStr, strUpperList, diffsQ,
      findAlignedRows, closestHeaderX, qListMin, qListMax,
      exH1, exH2, exD1, exD2, exD3, List.filterMap_cons, trimChars]
  rw [h]
  constructor
  · norm_num [createTableStructure]
  · norm_num [createTableStructure]

/-- C2 amended: for every `TableStructure` returned by `detectTables`,
`columnCount` equals `headers.length`, `rowCount` equals `rows.length`,
and `bounds` contains the bounding box of every header item and every
row item; row lengths, however, are not bounded by `columnCount`
(ragged rows may be longer as well as shorter than the header). -/
theorem C2_table_wellformedness :
    ∀ (comps : List EPC), ∀ t ∈ detectTables comps,
      t.columnCount = t.headers.length ∧ t.rowCount = t.rows.length ∧
      (∀ c ∈ t.headers, boundsContain t.bounds c) ∧
      (∀ row ∈ t.rows, ∀ c ∈ row, boundsContain t.bounds c) := by
  intro comps t ht
  obtain ⟨g, _, rfl⟩ := detectTables_shape ht
  refine ⟨rfl, rfl, ?_, ?_⟩
  · intro c hc
    exact createTableStructure_bounds (List.mem_append_left _ hc)
  · intro row hr c hc
    exact createTableStructure_bounds
      (List.mem_append_right _ (List.mem_flatten.mpr ⟨row, hr, hc⟩))

/-- C2 witness: the amended invariants on the concrete detected table. -/
theorem C2_table_wellformedness_witness :
    (createTableStructure [exH1, exH2] [[exD1, exD2, exD3]]).columnCount =
        (createTableStructure [exH1, exH2] [[exD1, exD2, exD3]]).headers.length ∧
    ∀ row ∈ (createTableStructure [exH1, exH2] [[exD1, exD2, exD3]]).rows,
      ∀ c ∈ row, boundsContain (createTableStructure [exH1, exH2] [[exD1, exD2, exD3]]).bounds c := by
  have hmem : createTableStructure [exH1, exH2] [[exD1, exD2, exD3]] ∈
      detectTables exTableComps := by
    have h : detectTables exTableComps =
        [createTableStructure [exH1, exH2] [[exD1, exD2, exD3]]] := by
      norm_num [detectTables, exTableComps, groupByRows, groupByRowsAux, sortByKey, insertLe,
        tableOfGroup, isLikelyTableHeader, typicalHeaderStart, trimStr, strUpperList, diffsQ,
        findAlignedRows, closestHeaderX, qListMin, qListMax,
        exH1, exH2, exD1, exD2, exD3, List.filterMap_cons, trimChars]
    rw [h]
    exact List.mem_cons_self _ _
  obtain ⟨h1, _, _, h4⟩ := C2_table_wellformedness exTableComps _ hmem
  exact ⟨h1, h4⟩

/-! ## Helper lemmas: square-root bridges and pairer selection -/

theorem cornerDistSq_nonneg (a b : HC) : 0 ≤ cornerDistSq a b := by
  unfold cornerDistSq
  positivity

theorem calculateDistanceSq_nonneg (a b : EPC) : 0 ≤ calculateDistanceSq a b := by
  unfold calculateDistanceSq
  positivity

/-- `max(0, 1 - sqrt s / 300) > 3/10  ↔  s < 210² = 44100` (for `s ≥ 0`):
the enhanced pairer's acceptance test in squared form. -/
theorem proximity_gt_03_iff {s : ℚ} (hs : (0:ℚ) ≤ s) :
    (3:ℝ)/10 < max 0 (1 - Real.sqrt (s : ℝ) / 300) ↔ s < 44100 := by
  have hsr : (0:ℝ) ≤ (s : ℝ) := by exact_mod_cast hs
  rw [lt_max_iff]
  constructor
  · rintro (h | h)
    · norm_num at h
    · have h2 : Real.sqrt (s : ℝ) < 210 := by linarith
      have h3 := (Real.sqrt_lt' (by norm_num : (0:ℝ) < 210)).mp h2
      have : (s : ℝ) < 44100 := by nlinarith
      exact_mod_cast this
  · intro h
    right
    have h3 : (s : ℝ) < 210 ^ 2 := by
      have : (s : ℝ) < 44100 := by exact_mod_cast h
      nlinarith
    have h2 : Real.sqrt (s : ℝ) < 210 := (Real.sqrt_lt' (by norm_num)).mpr h3
    linarith

/-- `max(0, 1 - sqrt s / 300) > 0.4  ↔  s < 180² = 32400` (for `s ≥ 0`):
the AI analyzer pairer's acceptance test in squared form. -/
theorem proximity_gt_04_iff {s : ℚ} (hs : (0:ℚ) ≤ s) :
    (2:ℝ)/5 < max 0 (1 - Real.sqrt (s : ℝ) / 300) ↔ s < 32400 := by
  have hsr : (0:ℝ) ≤ (s : ℝ) := by exact_mod_cast hs
  rw [lt_max_iff]
  constructor
  · rintro (h | h)
    · norm_num at h
    · have h2 : Real.sqrt (s : ℝ) < 180 := by linarith
      have h3 := (Real.sqrt_lt' (by norm_num : (0:ℝ) < 180)).mp h2
      have : (s : ℝ) < 32400 := by nlinarith
      exact_mod_cast this
  · intro h
    right
    have h3 : (s : ℝ) < 180 ^ 2 := by
      have : (s : ℝ) < 32400 := by exact_mod_cast h
      nlinarith
    have h2 : Real.sqrt (s : ℝ) < 180 := (Real.sqrt_lt' (by norm_num)).mpr h3
    linarith

/-- `sqrt s ≤ 300 ↔ s ≤ 300² = 90000` (for `s ≥ 0`): the validity
filter's distance cap in squared form. -/
theorem sqrt_le_300_iff {s : ℚ} (hs : (0:ℚ) ≤ s) :
    Real.sqrt (s : ℝ) ≤ 300 ↔ s ≤ 90000 := by
  have hsr : (0:ℝ) ≤ (s : ℝ) := by exact_mod_cast hs
  constructor
  · intro h
    have : (s : ℝ) ≤ 90000 := by
      nlinarith [Real.sq_sqrt hsr, Real.sqrt_nonneg (s : ℝ)]
    exact_mod_cast this
  · intro h
    have h2 : (s : ℝ) ≤ 300 ^ 2 := by
      have : (s : ℝ) ≤ 90000 := by exact_mod_cast h
      nlinarith
    calc Real.sqrt (s : ℝ) ≤ Real.sqrt (300 ^ 2) := Real.sqrt_le_sqrt h2
    _ = 300 := by
      rw [Real.sqrt_sq (by norm_num)]

theorem proximity_mem_unit {s : ℚ} (hs : (0:ℚ) ≤ s) :
    0 ≤ max 0 (1 - Real.sqrt (s : ℝ) / 300) ∧
      max 0 (1 - Real.sqrt (s : ℝ) / 300) ≤ 1 := by
  refine ⟨le_max_left _ _, max_le (by norm_num) ?_⟩
  have := Real.sqrt_nonneg (s : ℝ)
  linarith

theorem selectClosestHC_mem (l : HC) (c0 : ℕ × HC) (cs : List (ℕ × HC)) :
    selectClosestHC l c0 cs ∈ c0 :: cs := by
  induction cs generalizing c0 with
  | nil => exact List.mem_singleton_self _
  | cons c rest ih =>
    unfold selectClosestHC
    rcases List.mem_cons.mp (ih (if cornerDistSq l c.2 < cornerDistSq l c0.2 then c else c0))
      with h | h
    · rw [h]
      split
      · exact List.mem_cons_of_mem _ (List.mem_cons_self _ _)
      · exact List.mem_cons_self _ _
    · exact List.mem_cons_of_mem _ (List.mem_cons_of_mem _ h)

theorem selectClosestHC_min (l : HC) (c0 : ℕ × HC) (cs : List (ℕ × HC)) :
    ∀ c ∈ c0 :: cs,
      cornerDistSq l (selectClosestHC l c0 cs).2 ≤ cornerDistSq l c.2 := by
  induction cs generalizing c0 with
  | nil =>
    intro c hc
    rw [List.mem_singleton.mp hc]
    exact le_refl _
  | cons c rest ih =>
    intro d hd
    have hbest : cornerDistSq l
        ((if cornerDistSq l c.2 < cornerDistSq l c0.2 then c else c0)).2 ≤
        min (cornerDistSq l c.2) (cornerDistSq l c0.2) := by
      split
      · next hlt => exact le_min (le_refl _) (le_of_lt hlt)
      · next hge => exact le_min (le_of_not_lt hge) (le_refl _)
    rcases List.mem_cons.mp hd with rfl | hd2
    · exact le_trans (ih _ _ (List.mem_cons_self _ _))
        (le_trans hbest (min_le_right _ _))
    · rcases List.mem_cons.mp hd2 with rfl | hd3
      · exact le_trans (ih _ _ (List.mem_cons_self _ _))
          (le_trans hbest (min_le_left _ _))
      · exact ih _ _ (List.mem_cons_of_mem _ hd3)

theorem selectClosestAI_mem (l : EPC) (c0 : ℕ × EPC) (cs : List (ℕ × EPC)) :
    selectClosestAI l c0 cs ∈ c0 :: cs := by
  induction cs generalizing c0 with
  | nil => exact List.mem_singleton_self _
  | cons c rest ih =>
    unfold selectClosestAI
    rcases List.mem_cons.mp
      (ih (if calculateDistanceSq l c.2 < calculateDistanceSq l c0.2 then c else c0))
      with h | h
    · rw [h]
      split
      · exact List.mem_cons_of_mem _ (List.mem_cons_self _ _)
      · exact List.mem_cons_self _ _
    · exact List.mem_cons_of_mem _ (List.mem_cons_of_mem _ h)

theorem selectClosestAI_min (l : EPC) (c0 : ℕ × EPC) (cs : List (ℕ × EPC)) :
    ∀ c ∈ c0 :: cs,
      calculateDistanceSq l (selectClosestAI l c0 cs).2 ≤ calculateDistanceSq l c.2 := by
  induction cs generalizing c0 with
  | nil =>
    intro c hc
    rw [List.mem_singleton.mp hc]
    exact le_refl _
  | cons c rest ih =>
    intro d hd
    have hbest : calculateDistanceSq l
        ((if calculateDistanceSq l c.2 < calculateDistanceSq l c0.2 then c else c0)).2 ≤
        min (calculateDistanceSq l c.2) (calculateDistanceSq l c0.2) := by
      split
      · next hlt => exact le_min (le_refl _) (le_of_lt hlt)
      · next hge => exact le_min (le_of_not_lt hge) (le_refl _)
    rcases List.mem_cons.mp hd with rfl | hd2
    · exact le_trans (ih _ _ (List.mem_cons_self _ _))
        (le_trans hbest (min_le_right _ _))
    · rcases List.mem_cons.mp hd2 with rfl | hd3
      · exact le_trans (ih _ _ (List.mem_cons_self _ _))
          (le_trans hbest (min_le_left _ _))
      · exact ih _ _ (List.mem_cons_of_mem _ hd3)

/-! ## Helper lemmas: pairing-run invariants -/

theorem enhancedPairsAux_mem_spec :
    ∀ (labels datas : List (ℕ × HC)) (used : List ℕ),
      ∀ p ∈ enhancedPairsAux labels datas used,
        p.labelIdx ∈ labels.map Prod.fst ∧ used.contains p.dataIdx = false ∧
        0 ≤ p.distSq ∧ p.distSq < 44100 ∧
        ∃ l d : HC, p.distSq = cornerDistSq l d ∧ isValidLabelDataPair l d = true := by
  intro labels
  induction labels with
  | nil =>
    intro datas used p hp
    cases hp
  | cons hd rest ih =>
    intro datas used p hp
    obtain ⟨li, l⟩ := hd
    rw [enhancedPairsAux] at hp
    split at hp
    · obtain ⟨h1, h2, h3⟩ := ih datas used p hp
      exact ⟨List.mem_cons_of_mem _ h1, h2, h3⟩
    · next c cs hcand =>
      have hclosest : selectClosestHC l c cs ∈ c :: cs := selectClosestHC_mem l c cs
      rw [← hcand] at hclosest
      have hfilt := List.mem_filter.mp hclosest
      have hused : used.contains (selectClosestHC l c cs).1 = false := by
        have := hfilt.2
        simp only [Bool.and_eq_true, Bool.not_eq_true'] at this
        exact this.1
      have hvalid : isValidLabelDataPair l (selectClosestHC l c cs).2 = true := by
        have := hfilt.2
        simp only [Bool.and_eq_true] at this
        exact this.2
      split at hp
      · next haccept =>
        rcases List.mem_cons.mp hp with rfl | hp2
        · exact ⟨by simp, hused, cornerDistSq_nonneg _ _, haccept, _, _, rfl, hvalid⟩
        · obtain ⟨h1, h2, h3⟩ := ih datas _ p hp2
          refine ⟨List.mem_cons_of_mem _ h1, ?_, h3⟩
          rcases hcontains : used.contains p.dataIdx with _ | _
          · rfl
          · exfalso
            have hc2 : ((selectClosestHC l c cs).1 :: used).contains p.dataIdx = true := by
              simp only [List.contains_cons]
              rw [hcontains]
              simp
            rw [h2] at hc2
            exact Bool.false_ne_true hc2
      · obtain ⟨h1, h2, h3⟩ := ih datas used p hp
        exact ⟨List.mem_cons_of_mem _ h1, h2, h3⟩

theorem enhancedPairsAux_pairwise :
    ∀ (labels datas : List (ℕ × HC)) (used : List ℕ),
      (labels.map Prod.fst).Nodup →
      (enhancedPairsAux labels datas used).Pairwise fun p q =>
        p.labelIdx ≠ q.labelIdx ∧ p.dataIdx ≠ q.dataIdx := by
  intro labels
  induction labels with
  | nil =>
    intro datas used _
    exact List.Pairwise.nil
  | cons hd rest ih =>
    intro datas used hnodup
    obtain ⟨li, l⟩ := hd
    rw [List.map_cons, List.nodup_cons] at hnodup
    obtain ⟨hnotin, hnodup2⟩ := hnodup
    rw [enhancedPairsAux]
    split
    · exact ih datas used hnodup2
    · next c cs hcand =>
      split
      · next haccept =>
        refine List.Pairwise.cons ?_ (ih datas _ hnodup2)
        intro q hq
        obtain ⟨hq1, hq2, _⟩ := enhancedPairsAux_mem_spec rest datas _ q hq
        constructor
        · intro hcontra
          rw [← hcontra] at hq1
          exact hnotin hq1
        · intro hcontra
          rw [← hcontra] at hq2
          simp at hq2
      · exact ih datas used hnodup2


theorem find?_eq_of_pairwise_ne {α : Type} (key : α → ℕ) {l : List α}
    (h : l.Pairwise fun a b => key a ≠ key b) {p : α} (hp : p ∈ l) :
    l.find? (fun q => key q == key p) = some p := by
  induction l with
  | nil => cases hp
  | cons a rest ih =>
    rcases List.mem_cons.mp hp with rfl | hp2
    · rw [List.find?_cons_of_pos]
      simp
    · rw [List.find?_cons_of_neg, ih (List.Pairwise.sublist (List.sublist_cons_self _ _) h) hp2]
      have hne := (List.pairwise_cons.mp h).1 p hp2
      simp [hne]

/-- A label whose candidate set is empty, or whose closest candidate is
rejected by the threshold, contributes no pair and leaves the used-set
unchanged. -/
theorem enhancedPairsAux_skip (li : ℕ) (l : HC) (rest datas : List (ℕ × HC))
    (used : List ℕ)
    (h : ∀ (c : ℕ × HC) (cs : List (ℕ × HC)),
      datas.filter (fun djd => !(used.contains djd.1) && isValidLabelDataPair l djd.2) =
        c :: cs →
      ¬ (cornerDistSq l (selectClosestHC l c cs).2 < 44100)) :
    enhancedPairsAux ((li, l) :: rest) datas used = enhancedPairsAux rest datas used := by
  rw [enhancedPairsAux]
  split
  · rfl
  · next c cs hcand => rw [if_neg (h c cs hcand)]

theorem findLabelDataPairsAux_mem_spec :
    ∀ (labels datas : List (ℕ × EPC)) (used : List ℕ),
      ∀ p ∈ findLabelDataPairsAux labels datas used,
        0 ≤ p.distSq ∧ p.distSq < 32400 ∧
        ∃ l d : EPC, p.distSq = calculateDistanceSq l d ∧ aiIsCandidate l d = true := by
  intro labels
  induction labels with
  | nil =>
    intro datas used p hp
    cases hp
  | cons hd rest ih =>
    intro datas used p hp
    obtain ⟨li, l⟩ := hd
    rw [findLabelDataPairsAux] at hp
    split at hp
    · exact ih datas used p hp
    · next c cs hcand =>
      have hclosest : selectClosestAI l c cs ∈ c :: cs := selectClosestAI_mem l c cs
      rw [← hcand] at hclosest
      have hfilt := List.mem_filter.mp hclosest
      have hcandidate : aiIsCandidate l (selectClosestAI l c cs).2 = true := by
        have := hfilt.2
        simp only [Bool.and_eq_true] at this
        exact this.2
      split at hp
      · next haccept =>
        rcases List.mem_cons.mp hp with rfl | hp2
        · exact ⟨calculateDistanceSq_nonneg _ _, haccept, _, _, rfl, hcandidate⟩
        · exact ih datas _ p hp2
      · exact ih datas used p hp

/-- C4 counterexample: the claim's "Euclidean center-to-center
distance" is wrong for `findEnhancedLabelDataPairs`, whose
`calculateDistance` is the distance between the `(x, y)` top-left
corners.  With one label and two valid candidates, the pairer selects
candidate 0 (corner distance `√400 = 20` against `√441 = 21`), even
though candidate 1 is strictly closer center-to-center
(`√256 = 16` against `√4250 ≈ 65.2`). -/
theorem C4_counterexample :
    (findEnhancedLabelDataPairs [exPairLabel] [exPairD1, exPairD2]).map
        (fun p => (p.labelIdx, p.dataIdx)) = [(0, 0)] ∧
    isValidLabelDataPair exPairLabel exPairD2 = true ∧
    Real.sqrt ((hcCenterDistSq exPairLabel exPairD2 : ℚ) : ℝ) <
      Real.sqrt ((hcCenterDistSq exPairLabel exPairD1 : ℚ) : ℝ) := by
  refine ⟨?_, ?_, ?_⟩
  · norm_num [findEnhancedLabelDataPairs, enhancedPairsAux, selectClosestHC,
      isValidLabelDataPair, cornerDistSq, exPairLabel, exPairD1, exPairD2,
      List.enum, List.enumFrom]
  · norm_num [isValidLabelDataPair, cornerDistSq, exPairLabel, exPairD2]
  · have e1 : hcCenterDistSq exPairLabel exPairD2 = 256 := by
      norm_num [hcCenterDistSq, exPairLabel, exPairD2]
    have e2 : hcCenterDistSq exPairLabel exPairD1 = 4250 := by
      norm_num [hcCenterDistSq, exPairLabel, exPairD1]
    rw [e1, e2]
    apply Real.sqrt_lt_sqrt
    · norm_num
    · norm_num

/-- C4 amended: each pairer selects, among the candidates passing its
validity filter, the earliest candidate minimizing the Euclidean
distance computed by its own `calculateDistance` — between top-left
corners in `EnhancedPDFParser` (threshold 0.3), between centers in
`AIPDFAnalyzer` (threshold 0.4).  Proximity `max(0, 1 - d/300)` lies
in `[0,1]`; a pair is accepted exactly when the proximity exceeds the
threshold, and a label whose candidates are all rejected contributes
no pair. -/
theorem C4_proximity_pairing :
    (∀ l d : HC, isValidLabelDataPair l d = true ↔
      (Real.sqrt ((cornerDistSq l d : ℚ) : ℝ) ≤ 300 ∧
        ((d.x > l.x + l.width ∧ |d.y - l.y| < 30) ∨
         (d.y > l.y + l.height ∧ |d.x - l.x| < 100)))) ∧
    (∀ (l : HC) (c0 : ℕ × HC) (cs : List (ℕ × HC)),
      selectClosestHC l c0 cs ∈ c0 :: cs ∧
      ∀ c ∈ c0 :: cs,
        Real.sqrt ((cornerDistSq l (selectClosestHC l c0 cs).2 : ℚ) : ℝ) ≤
          Real.sqrt ((cornerDistSq l c.2 : ℚ) : ℝ)) ∧
    (∀ labels datas : List HC, ∀ p ∈ findEnhancedLabelDataPairs labels datas,
      0 ≤ max 0 (1 - Real.sqrt ((p.distSq : ℚ) : ℝ) / 300) ∧
      max 0 (1 - Real.sqrt ((p.distSq : ℚ) : ℝ) / 300) ≤ 1 ∧
      (3:ℝ)/10 < max 0 (1 - Real.sqrt ((p.distSq : ℚ) : ℝ) / 300)) ∧
    (∀ (li : ℕ) (l : HC) (rest datas : List (ℕ × HC)) (used : List ℕ),
      (∀ (c : ℕ × HC) (cs : List (ℕ × HC)),
        datas.filter (fun djd => !(used.contains djd.1) && isValidLabelDataPair l djd.2) =
          c :: cs →
        ¬ ((3:ℝ)/10 <
          max 0 (1 - Real.sqrt ((cornerDistSq l (selectClosestHC l c cs).2 : ℚ) : ℝ) / 300))) →
      enhancedPairsAux ((li, l) :: rest) datas used = enhancedPairsAux rest datas used) ∧
    (∀ (l : EPC) (c0 : ℕ × EPC) (cs : List (ℕ × EPC)),
      selectClosestAI l c0 cs ∈ c0 :: cs ∧
      ∀ c ∈ c0 :: cs,
        Real.sqrt ((calculateDistanceSq l (selectClosestAI l c0 cs).2 : ℚ) : ℝ) ≤
          Real.sqrt ((calculateDistanceSq l c.2 : ℚ) : ℝ)) ∧
    (∀ comps : List EPC, ∀ p ∈ findLabelDataPairs comps,
      0 ≤ max 0 (1 - Real.sqrt ((p.distSq : ℚ) : ℝ) / 300) ∧
      max 0 (1 - Real.sqrt ((p.distSq : ℚ) : ℝ) / 300) ≤ 1 ∧
      (2:ℝ)/5 < max 0 (1 - Real.sqrt ((p.distSq : ℚ) : ℝ) / 300)) := by
  refine ⟨?_, ?_, ?_, ?_, ?_, ?_⟩
  · intro l d
    have hnn := cornerDistSq_nonneg l d
    unfold isValidLabelDataPair
    simp only [Bool.and_eq_true, Bool.or_eq_true, decide_eq_true_eq]
    rw [← sqrt_le_300_iff hnn]
  · intro l c0 cs
    refine ⟨selectClosestHC_mem l c0 cs, fun c hc => Real.sqrt_le_sqrt ?_⟩
    exact_mod_cast selectClosestHC_min l c0 cs c hc
  · intro labels datas p hp
    obtain ⟨_, _, hnn, hlt, _⟩ :=
      enhancedPairsAux_mem_spec labels.enum datas.enum [] p hp
    obtain ⟨h1, h2⟩ := proximity_mem_unit hnn
    exact ⟨h1, h2, (proximity_gt_03_iff hnn).mpr hlt⟩
  · intro li l rest datas used h
    apply enhancedPairsAux_skip
    intro c cs hcand
    have hnn := cornerDistSq_nonneg l (selectClosestHC l c cs).2
    intro hlt
    exact h c cs hcand ((proximity_gt_03_iff hnn).mpr hlt)
  · intro l c0 cs
    refine ⟨selectClosestAI_mem l c0 cs, fun c hc => Real.sqrt_le_sqrt ?_⟩
    exact_mod_cast selectClosestAI_min l c0 cs c hc
  · intro comps p hp
    obtain ⟨hnn, hlt, _⟩ :=
      findLabelDataPairsAux_mem_spec (labelsFilterAI comps.enum)
        (dataFilterAI comps.enum) [] p hp
    obtain ⟨h1, h2⟩ := proximity_mem_unit hnn
    exact ⟨h1, h2, (proximity_gt_04_iff hnn).mpr hlt⟩

/-- C4 witness: the amended pairing facts at concrete inputs — the
accepted pair `(exPairLabel, exPairD1)` has proximity in `(0.3, 1]`,
and a label whose only candidate sits 250 units away (proximity `1/6`)
is left unpaired. -/
theorem C4_proximity_pairing_witness :
    ((3:ℝ)/10 <
      max 0 (1 - Real.sqrt (((⟨0, 0, 400⟩ : EPair).distSq : ℚ) : ℝ) / 300)) ∧
    enhancedPairsAux [(0, exPairLabel)] [(0, exFarD)] [] =
      enhancedPairsAux [] [(0, exFarD)] [] := by
  constructor
  · have hmem : (⟨0, 0, 400⟩ : EPair) ∈
        findEnhancedLabelDataPairs [exPairLabel] [exPairD1, exPairD2] := by
      have he : findEnhancedLabelDataPairs [exPairLabel] [exPairD1, exPairD2] =
          [⟨0, 0, 400⟩] := by
        norm_num [findEnhancedLabelDataPairs, enhancedPairsAux, selectClosestHC,
          isValidLabelDataPair, cornerDistSq, exPairLabel, exPairD1, exPairD2,
          List.enum, List.enumFrom]
      rw [he]
      exact List.mem_cons_self _ _
    exact (C4_proximity_pairing.2.2.1 [exPairLabel] [exPairD1, exPairD2] _ hmem).2.2
  · apply C4_proximity_pairing.2.2.2.1
    intro c cs hcand
    have he : ([(0, exFarD)] : List (ℕ × HC)).filter
        (fun djd => !(([] : List ℕ).contains djd.1) &&
          isValidLabelDataPair exPairLabel djd.2) = [(0, exFarD)] := by
      norm_num [isValidLabelDataPair, cornerDistSq, exPairLabel, exFarD]
    rw [he] at hcand
    obtain ⟨hc1, hc2⟩ := List.cons_eq_cons.mp hcand
    subst hc1
    subst hc2
    have hd : cornerDistSq exPairLabel (selectClosestHC exPairLabel (0, exFarD) []).2 =
        62500 := by
      norm_num [selectClosestHC, cornerDistSq, exPairLabel, exFarD]
    rw [hd]
    have hsqrt : Real.sqrt (((62500 : ℚ) : ℝ)) = 250 := by
      rw [show ((62500 : ℚ) : ℝ) = 250 ^ 2 by norm_num, Real.sqrt_sq (by norm_num)]
    rw [hsqrt, lt_max_iff]
    push_neg
    constructor <;> norm_num

/-- C5: the enhanced pairer's `pairedWith` references are symmetric —
for every produced pair, the label's `pairedWith` is the data component
and the data component's `pairedWith` is the label — and no component
ends a run paired with more than one other component (label and data
indices are each distinct across the produced pairs). -/
theorem C5_pairing_symmetry :
    ∀ labels datas : List HC,
      ((findEnhancedLabelDataPairs labels datas).Pairwise fun p q =>
        p.labelIdx ≠ q.labelIdx ∧ p.dataIdx ≠ q.dataIdx) ∧
      ∀ p ∈ findEnhancedLabelDataPairs labels datas,
        pairedWithOfLabel (findEnhancedLabelDataPairs labels datas) p.labelIdx =
          some p.dataIdx ∧
        pairedWithOfData (findEnhancedLabelDataPairs labels datas) p.dataIdx =
          some p.labelIdx := by
  intro labels datas
  have hnodup : (labels.enum.map Prod.fst).Nodup := by
    rw [List.enum_map_fst]
    exact List.nodup_range _
  have hpw : (findEnhancedLabelDataPairs labels datas).Pairwise fun p q =>
      p.labelIdx ≠ q.labelIdx ∧ p.dataIdx ≠ q.dataIdx :=
    enhancedPairsAux_pairwise labels.enum datas.enum [] hnodup
  refine ⟨hpw, ?_⟩
  intro p hp
  constructor
  · unfold pairedWithOfLabel
    rw [find?_eq_of_pairwise_ne (fun q => q.labelIdx)
      (hpw.imp fun h => h.1) hp]
    rfl
  · unfold pairedWithOfData
    rw [find?_eq_of_pairwise_ne (fun q => q.dataIdx)
      (hpw.imp fun h => h.2) hp]
    rfl

/-- C5 witness: symmetry of the references on a concrete run producing
one accepted pair. -/
theorem C5_pairing_symmetry_witness :
    pairedWithOfLabel (findEnhancedLabelDataPairs [exPairLabel] [exPairD1, exPairD2])
        (⟨0, 0, 400⟩ : EPair).labelIdx = some (⟨0, 0, 400⟩ : EPair).dataIdx ∧
    pairedWithOfData (findEnhancedLabelDataPairs [exPairLabel] [exPairD1, exPairD2])
        (⟨0, 0, 400⟩ : EPair).dataIdx = some (⟨0, 0, 400⟩ : EPair).labelIdx := by
  have hmem : (⟨0, 0, 400⟩ : EPair) ∈
      findEnhancedLabelDataPairs [exPairLabel] [exPairD1, exPairD2] := by
    have he : findEnhancedLabelDataPairs [exPairLabel] [exPairD1, exPairD2] =
        [⟨0, 0, 400⟩] := by
      norm_num [findEnhancedLabelDataPairs, enhancedPairsAux, selectClosestHC,
        isValidLabelDataPair, cornerDistSq, exPairLabel, exPairD1, exPairD2,
        List.enum, List.enumFrom]
    rw [he]
    exact List.mem_cons_self _ _
  exact (C5_pairing_symmetry [exPairLabel] [exPairD1, exPairD2]).2 _ hmem

/-! ## Helper lemmas: evaluating `toFixed(4)` -/

theorem string_empty_append (s : String) : "" ++ s = s := by
  cases s
  rfl

theorem toFixed4_eval {q : ℚ} {m : ℕ} (hq : ¬ q < 0)
    (hm : ⌊|q| * 10000 + 1/2⌋ = (m : ℤ)) :
    toFixed4 q = toString (m / 10000) ++ "." ++
      (⟨List.replicate (4 - (toString (m % 10000)).length) '0'⟩ ++
        toString (m % 10000)) := by
  unfold toFixed4
  rw [hm, if_neg hq]
  rw [Int.toNat_ofNat]
  exact string_empty_append _

/-- C3 counterexample: `AIPDFAnalyzer.convertToRDLFormats` applies no
minimum floors — a header component of zero width and height is
emitted as `0.0000in` by `0.0000in`, below the claimed `0.5in`/`0.25in`
floors (which only `convertPDFComponentsToHeaderTextboxes` applies). -/
theorem C3_counterexample :
    (convertToRDLHeaderTextboxes [exDegenerate]).map (fun t => (t.width, t.height)) =
      [(qToFixed4In (0 / 72), qToFixed4In (0 / 72))] ∧
    qToFixed4In ((0:ℚ) / 72) = "0.0000in" ∧
    qToFixed4In (max (1/2) ((0:ℚ) / 72)) = "0.5000in" ∧
    ("0.0000in" : String) ≠ "0.5000in" := by
  refine ⟨rfl, ?_, ?_, by decide⟩
  · unfold qToFixed4In
    rw [toFixed4_eval (m := 0) (by norm_num) (by norm_num)]
    rfl
  · unfold qToFixed4In
    rw [show max ((1:ℚ)/2) ((0:ℚ)/72) = 1/2 by norm_num,
      toFixed4_eval (m := 5000) (by norm_num)
        (by
          rw [Int.floor_eq_iff]
          push_cast
          rw [show |(1:ℚ)/2| = 1/2 by norm_num]
          norm_num)]
    rfl

/-- C3 amended: both header projections convert positions from points
to inches by dividing by 72 and formatting with `toFixed(4)` plus an
`in` suffix (total functions over exact rationals, so no NaN or
Infinity can arise); `convertPDFComponentsToHeaderTextboxes` floors
top/left at 0in, width at 0.5in and height at 0.25in (with the
`height || fontSize || 12` fallback), while
`AIPDFAnalyzer.convertToRDLFormats` applies no floors at all. -/
theorem C3_header_projection :
    (∀ (c : PCom) (i : ℕ),
      (pcomHeaderTextbox c i).top = qToFixed4In (max 0 (c.y / 72)) ∧
      (pcomHeaderTextbox c i).left = qToFixed4In (max 0 (c.x / 72)) ∧
      (pcomHeaderTextbox c i).width = qToFixed4In (max (1/2) (c.width / 72)) ∧
      (1:ℚ)/2 ≤ max (1/2) (c.width / 72) ∧
      (pcomHeaderTextbox c i).height = qToFixed4In (max (1/4)
        ((if c.height ≠ 0 then c.height
          else if c.fontSize ≠ 0 then c.fontSize else 12) / 72)) ∧
      (1:ℚ)/4 ≤ max (1/4)
        ((if c.height ≠ 0 then c.height
          else if c.fontSize ≠ 0 then c.fontSize else 12) / 72)) ∧
    (∀ (comps : List PCom), ∀ tb ∈ convertPDFComponentsToHeaderTextboxes comps,
      ∃ c ∈ comps, ∃ i, tb = pcomHeaderTextbox c i) ∧
    (∀ (c : EPC) (i : ℕ),
      (rdlHeaderTextbox c i).top = qToFixed4In (c.y / 72) ∧
      (rdlHeaderTextbox c i).left = qToFixed4In (c.x / 72) ∧
      (rdlHeaderTextbox c i).width = qToFixed4In (c.width / 72) ∧
      (rdlHeaderTextbox c i).height = qToFixed4In (c.height / 72)) := by
  refine ⟨?_, ?_, ?_⟩
  · intro c i
    exact ⟨rfl, rfl, rfl, le_max_left _ _, rfl, le_max_left _ _⟩
  · intro comps tb htb
    unfold convertPDFComponentsToHeaderTextboxes at htb
    obtain ⟨ic, hic, rfl⟩ := List.mem_map.mp htb
    have h1 : (List.filter pcomKept comps)[ic.1]? = some ic.2 :=
      List.mem_enum_iff_getElem?.mp hic
    have h2 : ic.2 ∈ List.filter pcomKept comps := List.getElem?_mem h1
    exact ⟨ic.2, List.mem_of_mem_filter h2, ic.1, rfl⟩
  · intro c i
    exact ⟨rfl, rfl, rfl, rfl⟩

/-- C3 witness: the floors at a concrete degenerate component. -/
theorem C3_header_projection_witness :
    (pcomHeaderTextbox exPCom 0).width = qToFixed4In (max (1/2) (exPCom.width / 72)) ∧
    ∃ c ∈ [exPCom], ∃ i, pcomHeaderTextbox exPCom 0 = pcomHeaderTextbox c i :=
  ⟨(C3_header_projection.1 exPCom 0).2.2.1,
   C3_header_projection.2.1 [exPCom] (pcomHeaderTextbox exPCom 0) (by
    show pcomHeaderTextbox exPCom 0 ∈
      (List.filter pcomKept [exPCom]).enum.map fun ic => pcomHeaderTextbox ic.2 ic.1
    rw [show List.filter pcomKept [exPCom] = [exPCom] from rfl]
    exact List.mem_cons_self _ _)⟩
